import Mathlib

/-!
Verification of the VisualMem ingest-and-retrieval engine.

Shallow embedding of the parts of the source relevant to the frozen claims:
frame-difference engine (core/preprocess/frame_diff.py), video chunk writer
(core/storage/video_chunk_writer.py), relational store
(core/storage/sqlite_storage.py), frame-id generation (main.py and
core/capture/recording_coordinator.py), hybrid merge (gui/workers/query_worker.py),
OCR queue (main.py), query rewriting (core/retrieval/query_llm_utils.py) and
the OCR-embedding write (core/storage/lancedb_storage.py).

Images, image metrics, the regex engine, ISO-datetime parsing and the SQLite
driver are external collaborators; they appear as abstract parameters, while
all control flow and state updates are translated from the source.
-/

namespace VisualMem

/-! ## Frame-difference engine (core/preprocess/frame_diff.py)

Images are abstract; the histogram (Hellinger) distance and the SSIM score are
abstract metric parameters returning rationals.  Hashes are integers. -/

structure FrameDiffResult where
  should_store : Bool
  diff_score : ℚ
  histogram_diff : ℚ
  ssim_diff : ℚ
  reason : String
deriving Repr, DecidableEq

structure ScreenDiffState (Img : Type) where
  previous_image : Option Img := none
  previous_hash : ℤ := 0
  frame_count : ℕ := 0
  max_average_frame : Option Img := none
  max_average_value : ℚ := 0
  max_average_frame_number : ℕ := 0

structure WindowDiffState (Img : Type) where
  previous_image : Option Img := none
  previous_hash : ℤ := 0
  frame_count : ℕ := 0
  app_name : String := ""
  window_name : String := ""

structure ScreenObject (Img : Type) where
  monitor_id : ℤ
  full_screen_image : Img
  full_screen_hash : ℤ

structure WindowFrame (Img : Type) where
  app_name : String
  window_name : String
  process_id : ℤ
  image : Img
  image_hash : ℤ

structure FrameDiffDetector (Img : Type) where
  screen_threshold : ℚ
  window_threshold : ℚ
  use_max_average : Bool
  screen_states : ℤ → Option (ScreenDiffState Img)
  window_states : String → Option (WindowDiffState Img)

/-- `FrameDiffDetector._get_window_key`: the window key string `app::window::pid`. -/
def getWindowKey (app_name window_name : String) (process_id : ℤ) : String :=
  app_name ++ ("::") ++ window_name ++ ("::") ++ toString process_id

/-- Write back the per-monitor state entry (`self.screen_states[monitor_id] = st`). -/
def setScreenState {Img : Type} (det : FrameDiffDetector Img) (m : ℤ)
    (st : ScreenDiffState Img) : FrameDiffDetector Img :=
  { det with screen_states := fun m' => if m' = m then some st else det.screen_states m' }

/-- Write back the per-window state entry (`self.window_states[window_key] = st`). -/
def setWindowState {Img : Type} (det : FrameDiffDetector Img) (k : String)
    (st : WindowDiffState Img) : FrameDiffDetector Img :=
  { det with window_states := fun k' => if k' = k then some st else det.window_states k' }

/-- The claim's accept condition on a diff result: stored iff the combined
score `(histogram_distance + ssim_diff)/2` reaches the threshold. -/
def acceptIffThreshold (th : ℚ) (r : FrameDiffResult) : Prop :=
  r.should_store = true ↔ th ≤ (r.histogram_diff + r.ssim_diff) / 2

/-- `FrameDiffDetector._compare_images`: hash short-circuit, then
`(combined, histogram_diff, ssim_diff)` with `combined = (hist + (1 - ssim))/2`. -/
def compareImages {Img : Type} (histDiff ssimScore : Img → Img → ℚ)
    (current previous : Img) (current_hash previous_hash : ℤ) : ℚ × ℚ × ℚ :=
  if current_hash = previous_hash then (0, 0, 0)
  else
    let histogram_diff := histDiff current previous
    let ssim_diff := 1 - ssimScore current previous
    ((histogram_diff + ssim_diff) / 2, histogram_diff, ssim_diff)

/-- `FrameDiffDetector.check_screen_diff`: returns the result and the updated
detector (the per-monitor state map is updated at `obj.monitor_id`). -/
def checkScreenDiff {Img : Type} (histDiff ssimScore : Img → Img → ℚ)
    (det : FrameDiffDetector Img) (obj : ScreenObject Img) :
    FrameDiffResult × FrameDiffDetector Img :=
  let st0 := (det.screen_states obj.monitor_id).getD {}
  let st := { st0 with frame_count := st0.frame_count + 1 }
  match st.previous_image with
  | none =>
      let st' := { st with previous_image := some obj.full_screen_image,
                           previous_hash := obj.full_screen_hash }
      (⟨true, 1, 1, 1, "First frame"⟩, setScreenState det obj.monitor_id st')
  | some prev =>
      let cmp := compareImages histDiff ssimScore obj.full_screen_image prev
        obj.full_screen_hash st.previous_hash
      let combined := cmp.1
      let histogram_diff := cmp.2.1
      let ssim_diff := cmp.2.2
      let should_store : Bool := decide (det.screen_threshold ≤ combined)
      if should_store then
        let st1 := { st with previous_image := some obj.full_screen_image,
                             previous_hash := obj.full_screen_hash }
        let st' := if det.use_max_average then
            { st1 with max_average_frame := none, max_average_value := 0,
                       max_average_frame_number := 0 }
          else st1
        (⟨true, combined, histogram_diff, ssim_diff, "Changed"⟩,
         setScreenState det obj.monitor_id st')
      else
        let st' := if det.use_max_average ∧ st.max_average_value < combined then
            { st with max_average_frame := some obj.full_screen_image,
                      max_average_value := combined,
                      max_average_frame_number := st.frame_count }
          else st
        (⟨false, combined, histogram_diff, ssim_diff, "Unchanged"⟩,
         setScreenState det obj.monitor_id st')

/-- `FrameDiffDetector.check_window_diff`: same algorithm keyed by the window key. -/
def checkWindowDiff {Img : Type} (histDiff ssimScore : Img → Img → ℚ)
    (det : FrameDiffDetector Img) (w : WindowFrame Img) :
    FrameDiffResult × FrameDiffDetector Img :=
  let key := getWindowKey w.app_name w.window_name w.process_id
  let st0 := (det.window_states key).getD
    { app_name := w.app_name, window_name := w.window_name }
  let st := { st0 with frame_count := st0.frame_count + 1 }
  match st.previous_image with
  | none =>
      let st' := { st with previous_image := some w.image,
                           previous_hash := w.image_hash }
      (⟨true, 1, 1, 1, "First frame for this window"⟩, setWindowState det key st')
  | some prev =>
      let cmp := compareImages histDiff ssimScore w.image prev
        w.image_hash st.previous_hash
      let combined := cmp.1
      let histogram_diff := cmp.2.1
      let ssim_diff := cmp.2.2
      let should_store : Bool := decide (det.window_threshold ≤ combined)
      if should_store then
        let st' := { st with previous_image := some w.image,
                             previous_hash := w.image_hash }
        (⟨true, combined, histogram_diff, ssim_diff, "Changed"⟩,
         setWindowState det key st')
      else
        (⟨false, combined, histogram_diff, ssim_diff, "Unchanged"⟩,
         setWindowState det key st)

/-- One call into the frame-difference engine, as issued by the coordinator:
either a full-screen check or a window check. -/
inductive DiffCall (Img : Type)
  | screen (o : ScreenObject Img)
  | window (w : WindowFrame Img)

/-- Dispatch one call to the engine. -/
def diffStep {Img : Type} (histDiff ssimScore : Img → Img → ℚ)
    (det : FrameDiffDetector Img) : DiffCall Img → FrameDiffResult × FrameDiffDetector Img
  | .screen o => checkScreenDiff histDiff ssimScore det o
  | .window w => checkWindowDiff histDiff ssimScore det w

/-- The results seen by the screen stream of monitor `m`, over an arbitrary
interleaved sequence of engine calls. -/
def screenStream {Img : Type} (histDiff ssimScore : Img → Img → ℚ) (m : ℤ)
    (det : FrameDiffDetector Img) : List (DiffCall Img) → List FrameDiffResult
  | [] => []
  | c :: rest =>
      let step := diffStep histDiff ssimScore det c
      match c with
      | .screen o =>
          if o.monitor_id = m then step.1 :: screenStream histDiff ssimScore m step.2 rest
          else screenStream histDiff ssimScore m step.2 rest
      | .window _ => screenStream histDiff ssimScore m step.2 rest

/-- The results seen by the window stream with key `k`, over an arbitrary
interleaved sequence of engine calls. -/
def windowStream {Img : Type} (histDiff ssimScore : Img → Img → ℚ) (k : String)
    (det : FrameDiffDetector Img) : List (DiffCall Img) → List FrameDiffResult
  | [] => []
  | c :: rest =>
      let step := diffStep histDiff ssimScore det c
      match c with
      | .screen _ => windowStream histDiff ssimScore k step.2 rest
      | .window w =>
          if getWindowKey w.app_name w.window_name w.process_id = k then
            step.1 :: windowStream histDiff ssimScore k step.2 rest
          else windowStream histDiff ssimScore k step.2 rest

/-! ## Video chunk writer (core/storage/video_chunk_writer.py)

The FFmpeg child process is abstracted to the flag `ffmpeg_open`; we model the
successful-write path (PNG encode and pipe write succeed).  `chunks_started`
counts the chunk files opened so far, so the current chunk has zero-based
index `chunks_started - 1`. -/

structure VideoChunkWriter where
  fps : ℚ
  chunk_duration : ℤ
  frames_per_chunk : ℤ
  ffmpeg_open : Bool
  frame_count : ℕ
  chunks_started : ℕ
deriving Repr, DecidableEq

/-- Python `int()` truncation toward zero on a rational. -/
def ratTrunc (q : ℚ) : ℤ := if 0 ≤ q then ⌊q⌋ else ⌈q⌉

/-- `VideoChunkWriter.__init__`: fps is clamped (`min(fps if fps > 0 else 1.0, 30.0)`)
and `frames_per_chunk = int(fps * chunk_duration)`. -/
def initWriter (fps : ℚ) (chunk_duration : ℤ) : VideoChunkWriter :=
  let f := min (if 0 < fps then fps else 1) 30
  { fps := f
    chunk_duration := chunk_duration
    frames_per_chunk := ratTrunc (f * chunk_duration)
    ffmpeg_open := false
    frame_count := 0
    chunks_started := 0 }

/-- `VideoChunkWriter.write_frame` (successful path): roll over when there is no
process or `frame_count >= frames_per_chunk`, then return the offset
`frame_count` and increment it.  The second component of the result is the
zero-based index of the chunk written to and the offset inside it. -/
def writeFrame (w : VideoChunkWriter) : VideoChunkWriter × ℕ × ℕ :=
  let w1 :=
    if w.ffmpeg_open = false ∨ w.frames_per_chunk ≤ (w.frame_count : ℤ) then
      { w with ffmpeg_open := true, frame_count := 0,
               chunks_started := w.chunks_started + 1 }
    else w
  ({ w1 with frame_count := w1.frame_count + 1 }, w1.chunks_started - 1, w1.frame_count)

/-- The writer state after `n` successful writes. -/
def runWrites (w : VideoChunkWriter) : ℕ → VideoChunkWriter
  | 0 => w
  | n + 1 => (writeFrame (runWrites w n)).1

/-- The `(chunk index, offset_index)` returned by the `i`-th write (0-based). -/
def nthWriteResult (w : VideoChunkWriter) (i : ℕ) : ℕ × ℕ :=
  (writeFrame (runWrites w i)).2

/-! ## Relational store, success-path state semantics (core/storage/sqlite_storage.py)

Row types mirror the `CREATE TABLE` statements; a column that may be NULL and
is not always bound by the insert statements is an `Option`.  `INSERT OR
REPLACE` removes any row with the same primary key and appends a fresh row in
which unbound columns take their schema defaults (`monitor_id DEFAULT 0`,
others NULL). -/

structure FrameRow where
  frame_id : String
  timestamp : String
  image_path : String
  device_name : String
  metadata : String
  video_chunk_id : Option ℤ
  offset_index : Option ℤ
  monitor_id : ℤ
  image_hash : Option ℤ
deriving Repr, DecidableEq

structure VideoChunkRow where
  id : ℤ
  file_path : String
  monitor_id : ℤ
  device_name : String
  fps : ℚ
  frame_count : ℤ
deriving Repr, DecidableEq

structure WindowChunkRow where
  id : ℤ
  file_path : String
  app_name : String
  window_name : String
  monitor_id : ℤ
  fps : ℚ
  frame_count : ℤ
deriving Repr, DecidableEq

structure SubFrameRow where
  sub_frame_id : String
  window_chunk_id : ℤ
  offset_index : ℤ
  timestamp : String
  app_name : String
  window_name : String
  process_id : ℤ
  is_focused : Bool
  image_hash : ℤ
deriving Repr, DecidableEq

structure OcrTextRow where
  frame_id : Option String
  sub_frame_id : Option String
  text : String
  text_json : String
  ocr_engine : String
  text_length : ℤ
  confidence : ℚ
deriving Repr, DecidableEq

structure MappingRow where
  frame_id : String
  sub_frame_id : String
deriving Repr, DecidableEq

structure Db where
  frames : List FrameRow
  sub_frames : List SubFrameRow
  video_chunks : List VideoChunkRow
  window_chunks : List WindowChunkRow
  ocr_text : List OcrTextRow
  mappings : List MappingRow
deriving Repr, DecidableEq

def emptyDb : Db := ⟨[], [], [], [], [], []⟩

/-- `SQLiteStorage.insert_video_chunk`: `frame_count` takes its schema default 0;
the returned id is SQLite's `lastrowid` (sequential, since the pipeline never
deletes chunk rows). -/
def insertVideoChunk (db : Db) (file_path : String) (monitor_id : ℤ)
    (device_name : String) (fps : ℚ) : Db × ℤ :=
  let cid := (db.video_chunks.length : ℤ) + 1
  ({ db with video_chunks := db.video_chunks ++
      [{ id := cid, file_path := file_path, monitor_id := monitor_id,
         device_name := device_name, fps := fps, frame_count := 0 }] }, cid)

/-- `SQLiteStorage.insert_window_chunk`: `frame_count` takes its schema default 0. -/
def insertWindowChunk (db : Db) (file_path app_name window_name : String)
    (monitor_id : ℤ) (fps : ℚ) : Db × ℤ :=
  let cid := (db.window_chunks.length : ℤ) + 1
  ({ db with window_chunks := db.window_chunks ++
      [{ id := cid, file_path := file_path, app_name := app_name,
         window_name := window_name, monitor_id := monitor_id, fps := fps,
         frame_count := 0 }] }, cid)

/-- `SQLiteStorage.store_frame_with_video_ref`: `INSERT OR REPLACE` binding all
nine columns; `image_path` is the string `video_chunk:<id>:<offset>`. -/
def storeFrameWithVideoRef (db : Db) (frame_id timestamp : String)
    (video_chunk_id offset_index monitor_id image_hash : ℤ)
    (device_name metadata : String) : Db :=
  let row : FrameRow :=
    { frame_id := frame_id, timestamp := timestamp,
      image_path := ("video_chunk:") ++ toString video_chunk_id ++ (":") ++
        toString offset_index,
      device_name := device_name, metadata := metadata,
      video_chunk_id := some video_chunk_id, offset_index := some offset_index,
      monitor_id := monitor_id, image_hash := some image_hash }
  { db with frames := db.frames.filter (fun f => f.frame_id ≠ frame_id) ++ [row] }

/-- `SQLiteStorage.store_frame_with_ocr`: `INSERT OR REPLACE INTO frames` binding
only `(frame_id, timestamp, image_path, device_name, metadata)`, so
`video_chunk_id`, `offset_index` and `image_hash` become NULL and `monitor_id`
falls back to its schema default 0; then an `ocr_text` insert if the text is
non-empty. -/
def storeFrameWithOcrDb (db : Db) (frame_id timestamp image_path : String)
    (ocr_text ocr_text_json ocr_engine : String) (ocr_confidence : ℚ)
    (device_name metadata : String) : Db :=
  let row : FrameRow :=
    { frame_id := frame_id, timestamp := timestamp, image_path := image_path,
      device_name := device_name, metadata := metadata,
      video_chunk_id := none, offset_index := none,
      monitor_id := 0, image_hash := none }
  let db1 := { db with frames := db.frames.filter (fun f => f.frame_id ≠ frame_id) ++ [row] }
  if ocr_text ≠ "" then
    { db1 with ocr_text := db1.ocr_text ++
        [{ frame_id := some frame_id, sub_frame_id := none, text := ocr_text,
           text_json := ocr_text_json, ocr_engine := ocr_engine,
           text_length := (ocr_text.length : ℤ), confidence := ocr_confidence }] }
  else db1

/-- `SQLiteStorage.store_sub_frame`: `INSERT OR REPLACE` binding all columns. -/
def storeSubFrame (db : Db) (sub_frame_id timestamp : String)
    (window_chunk_id offset_index : ℤ) (app_name window_name : String)
    (process_id : ℤ) (is_focused : Bool) (image_hash : ℤ) : Db :=
  let row : SubFrameRow :=
    { sub_frame_id := sub_frame_id, window_chunk_id := window_chunk_id,
      offset_index := offset_index, timestamp := timestamp,
      app_name := app_name, window_name := window_name,
      process_id := process_id, is_focused := is_focused,
      image_hash := image_hash }
  { db with sub_frames :=
      db.sub_frames.filter (fun s => s.sub_frame_id ≠ sub_frame_id) ++ [row] }

/-- `SQLiteStorage.store_sub_frame_ocr`: plain insert, only if the text is non-empty. -/
def storeSubFrameOcr (db : Db) (sub_frame_id ocr_text ocr_text_json ocr_engine : String)
    (ocr_confidence : ℚ) : Db :=
  if ocr_text ≠ "" then
    { db with ocr_text := db.ocr_text ++
        [{ frame_id := none, sub_frame_id := some sub_frame_id, text := ocr_text,
           text_json := ocr_text_json, ocr_engine := ocr_engine,
           text_length := (ocr_text.length : ℤ), confidence := ocr_confidence }] }
  else db

/-- `SQLiteStorage.add_frame_subframe_mapping`: `INSERT OR IGNORE` on the
`UNIQUE(frame_id, sub_frame_id)` pair. -/
def addFrameSubframeMapping (db : Db) (frame_id sub_frame_id : String) : Db :=
  if db.mappings.contains { frame_id := frame_id, sub_frame_id := sub_frame_id } then db
  else { db with mappings := db.mappings ++
      [{ frame_id := frame_id, sub_frame_id := sub_frame_id }] }

/-- The database writes the steady-state ingest pipeline
(`RecordingCoordinator.process_capture` together with the chunk-creation
callback `_on_chunk_created`) can issue.  `update_chunk_frame_count` is not
among them: no caller of it exists in the source. -/
inductive IngestOp
  | insertVideoChunk (file_path : String) (monitor_id : ℤ) (device_name : String) (fps : ℚ)
  | insertWindowChunk (file_path app_name window_name : String) (monitor_id : ℤ) (fps : ℚ)
  | storeFrameWithVideoRef (frame_id timestamp : String)
      (video_chunk_id offset_index monitor_id image_hash : ℤ)
      (device_name metadata : String)
  | storeFrameWithOcr (frame_id timestamp image_path : String)
      (ocr_text ocr_text_json ocr_engine : String) (ocr_confidence : ℚ)
      (device_name metadata : String)
  | storeSubFrame (sub_frame_id timestamp : String)
      (window_chunk_id offset_index : ℤ) (app_name window_name : String)
      (process_id : ℤ) (is_focused : Bool) (image_hash : ℤ)
  | storeSubFrameOcr (sub_frame_id ocr_text ocr_text_json ocr_engine : String)
      (ocr_confidence : ℚ)
  | addFrameSubframeMapping (frame_id sub_frame_id : String)

/-- Apply one pipeline write to the database state. -/
def applyIngestOp (db : Db) : IngestOp → Db
  | .insertVideoChunk fp mid dev fps => (insertVideoChunk db fp mid dev fps).1
  | .insertWindowChunk fp app win mid fps => (insertWindowChunk db fp app win mid fps).1
  | .storeFrameWithVideoRef fid ts vcid off mid ih dev meta =>
      storeFrameWithVideoRef db fid ts vcid off mid ih dev meta
  | .storeFrameWithOcr fid ts ip t tj eng conf dev meta =>
      storeFrameWithOcrDb db fid ts ip t tj eng conf dev meta
  | .storeSubFrame sid ts wcid off app win pid foc ih =>
      storeSubFrame db sid ts wcid off app win pid foc ih
  | .storeSubFrameOcr sid t tj eng conf => storeSubFrameOcr db sid t tj eng conf
  | .addFrameSubframeMapping fid sid => addFrameSubframeMapping db fid sid

/-- Apply a whole run of pipeline writes. -/
def applyIngestOps (db : Db) : List IngestOp → Db
  | [] => db
  | op :: rest => applyIngestOps (applyIngestOp db op) rest

/-- The number of `frames` rows whose chunk reference points at chunk `cid`. -/
def framesReferencingChunk (db : Db) (cid : ℤ) : ℕ :=
  (db.frames.filter (fun f => f.video_chunk_id = some cid)).length

/-- Look up a frames row by primary key. -/
def findFrame (db : Db) (frame_id : String) : Option FrameRow :=
  db.frames.find? (fun f => f.frame_id = frame_id)

/-! ## Frame-id generation (main.py `generate_frame_id`,
recording_coordinator.py `_generate_frame_id`)

A timestamp is the tuple of fields `strftime` reads; identifiers are modelled
as `List Char` (Python `str` compares by code points, as `List.Lex (· < ·)`
does on `Char`). -/

structure PyDateTime where
  year : ℕ
  month : ℕ
  day : ℕ
  hour : ℕ
  minute : ℕ
  second : ℕ
  microsecond : ℕ
deriving Repr, DecidableEq

/-- Field ranges of a real `datetime.now()` value (year printable as 4 digits). -/
def ValidDT (t : PyDateTime) : Prop :=
  1000 ≤ t.year ∧ t.year ≤ 9999 ∧ 1 ≤ t.month ∧ t.month ≤ 12 ∧
  1 ≤ t.day ∧ t.day ≤ 31 ∧ t.hour ≤ 23 ∧ t.minute ≤ 59 ∧ t.second ≤ 59 ∧
  t.microsecond ≤ 999999

instance (t : PyDateTime) : Decidable (ValidDT t) := by
  unfold ValidDT; infer_instance

/-- The decimal digit characters. -/
def digitChar (d : ℕ) : Char :=
  match d with
  | 0 => '0' | 1 => '1' | 2 => '2' | 3 => '3' | 4 => '4'
  | 5 => '5' | 6 => '6' | 7 => '7' | 8 => '8' | _ => '9'

/-- Zero-padded decimal of width `w`, most significant digit first
(Python `%04d`, `%02d`, `%06d`). -/
def padNum : ℕ → ℕ → List Char
  | 0, _ => []
  | w + 1, n => digitChar (n / 10 ^ w) :: padNum w (n % 10 ^ w)

/-- `timestamp.strftime("%Y%m%d_%H%M%S_%f")` (equivalently main.py's
`strftime("%Y%m%d_%H%M%S_") + f-string "%06d" % microsecond`). -/
def fmtTimestamp (t : PyDateTime) : List Char :=
  padNum 4 t.year ++ (padNum 2 t.month ++ (padNum 2 t.day ++
    ('_' :: (padNum 2 t.hour ++ (padNum 2 t.minute ++ (padNum 2 t.second ++
      ('_' :: padNum 6 t.microsecond)))))))

/-- main.py `generate_frame_id`. -/
def generateFrameId (t : PyDateTime) : List Char := fmtTimestamp t

/-- recording_coordinator.py `_generate_frame_id`: `frame_<timestamp>_<8 hex>`
(the hex suffix comes from `uuid.uuid4().hex[:8]`, supplied as a parameter). -/
def coordinatorFrameId (t : PyDateTime) (hex8 : List Char) : List Char :=
  ("frame_").toList ++ fmtTimestamp t ++ ('_' :: hex8)

/-- The claim's shape for the 22-character core: exactly 22 characters,
underscores at (0-based) positions 8 and 15, decimal digits everywhere else. -/
def claimCore (s : List Char) : Bool :=
  match s with
  | [c0, c1, c2, c3, c4, c5, c6, c7, c8, c9, c10, c11, c12, c13, c14, c15,
     c16, c17, c18, c19, c20, c21] =>
      c0.isDigit && c1.isDigit && c2.isDigit && c3.isDigit && c4.isDigit &&
      c5.isDigit && c6.isDigit && c7.isDigit && c8 == '_' && c9.isDigit &&
      c10.isDigit && c11.isDigit && c12.isDigit && c13.isDigit && c14.isDigit &&
      c15 == '_' && c16.isDigit && c17.isDigit && c18.isDigit && c19.isDigit &&
      c20.isDigit && c21.isDigit
  | _ => false

/-- Lowercase hexadecimal digit, as produced by `uuid4().hex`. -/
def isLowerHexDigit (c : Char) : Bool :=
  c.isDigit || ('a' ≤ c && c ≤ 'f')

/-- The frame-id shape asserted by the claim: exactly the 22-character core,
optionally followed by `_` and 8 hex digits. -/
def claimFrameIdFormat (s : List Char) : Prop :=
  (s.length = 22 ∧ claimCore s = true) ∨
  (s.length = 31 ∧ claimCore (s.take 22) = true ∧ s.getD 22 ' ' = '_' ∧
    (s.drop 23).all isLowerHexDigit = true)

instance (s : List Char) : Decidable (claimFrameIdFormat s) := by
  unfold claimFrameIdFormat; infer_instance

/-- Chronological (lexicographic componentwise) order on timestamps. -/
def dtLt (a b : PyDateTime) : Prop :=
  a.year < b.year ∨ (a.year = b.year ∧
    (a.month < b.month ∨ (a.month = b.month ∧
      (a.day < b.day ∨ (a.day = b.day ∧
        (a.hour < b.hour ∨ (a.hour = b.hour ∧
          (a.minute < b.minute ∨ (a.minute = b.minute ∧
            (a.second < b.second ∨ (a.second = b.second ∧
              a.microsecond < b.microsecond)))))))))))

instance (a b : PyDateTime) : Decidable (dtLt a b) := by
  unfold dtLt; infer_instance

/-! ## Hybrid merge and dedup (gui/workers/query_worker.py `query_rag_with_time`)

A retrieval result row; only the fields the merge loop reads are kept. -/

structure RFrame where
  frame_id : String
  timestamp : String
  distance : ℚ
deriving Repr, DecidableEq

/-- The merge loop state `(frames, seen)` advanced over one result list:
skip a row whose `frame_id` was seen, otherwise append it and mark it seen. -/
def mergeLoop : List RFrame × List String → List RFrame → List RFrame × List String
  | acc, [] => acc
  | (fs, seen), r :: rest =>
      if r.frame_id ∈ seen then mergeLoop (fs, seen) rest
      else mergeLoop (fs ++ [r], r.frame_id :: seen) rest

/-- The merged candidate list: the two `for` loops of the source, dense first,
then sparse, sharing one `seen` set. -/
def mergedFrames (dense sparse : List RFrame) : List RFrame :=
  (mergeLoop (mergeLoop ([], []) dense) sparse).1

/-- Modelled from the spec's merge contract: keep the first occurrence of each
`frame_id` not already in `seen`, preserving order.  Used to compare the
source's merge loop against the specified shape. -/
def specDedup (seen : List String) : List RFrame → List RFrame
  | [] => []
  | r :: rest =>
      if r.frame_id ∈ seen then specDedup seen rest
      else r :: specDedup (r.frame_id :: seen) rest

/-- `_sparse_search_task`: its body may raise; any exception is caught and an
empty list is returned. -/
def sparseBranchResult (outcome : Except String (List RFrame)) : List RFrame :=
  match outcome with
  | .ok l => l
  | .error _ => []

/-- The `seen` set contents after one merge loop pass. -/
def seenAfter (seen : List String) : List RFrame → List String
  | [] => seen
  | r :: rest =>
      if r.frame_id ∈ seen then seenAfter seen rest
      else seenAfter (r.frame_id :: seen) rest

/-! ## OCR queue (main.py)

`ocr_queue = queue.Queue(maxsize=100)`; `enqueue_ocr_task` uses
`put(task, block=False)`, which raises `queue.Full` when the queue holds
`maxsize` items; the handler logs a warning and drops the new task.  The queue
is FIFO: `put` appends at the tail, the worker `get`s from the head. -/

structure OcrTask where
  frame_id : String
  timestamp : String
  image_path : String
deriving Repr, DecidableEq

def ocrQueueMaxsize : ℕ := 100

/-- main.py `enqueue_ocr_task`: returns the new queue contents and the warning
logged, if any. -/
def enqueueOcrTask (useOcr : Bool) (q : List OcrTask) (t : OcrTask) :
    List OcrTask × Option String :=
  if useOcr = false then (q, none)
  else if ocrQueueMaxsize ≤ q.length then (q, some ("OCR queue full, dropping frame"))
  else (q ++ [t], none)

/-- Steps 4-5 of main.py `capture_and_store_pipeline` after the diff filter:
the frame is stored first; only then, and only on success, is an OCR task
enqueued.  Returns whether the frame was stored and the resulting queue. -/
def pipelineStoreThenEnqueue (storeSuccess useOcr : Bool) (q : List OcrTask)
    (t : OcrTask) : Bool × List OcrTask :=
  if storeSuccess && useOcr then (storeSuccess, (enqueueOcrTask useOcr q t).1)
  else (storeSuccess, q)

/-! ## SQLiteStorage error handling (core/storage/sqlite_storage.py)

Control-flow view of the public methods: each call into the sqlite3 driver is
an oracle value `Except PyErr _`; every method wraps its whole body in
`try/except Exception` and returns a fallback on any error.  `searchByTextBody`
keeps the inner `except sqlite3.OperationalError` that falls back from FTS5 to
the LIKE query. -/

inductive PyErr
  | opError
  | genErr
deriving Repr, DecidableEq

/-- `try: body except Exception: return fallback`. -/
def pyTry {α : Type} (body : Except PyErr α) (fallback : α) : α :=
  match body with
  | .ok a => a
  | .error _ => fallback

structure StoreFrameCalls where
  connect : Except PyErr Unit
  insertFrame : Except PyErr Unit
  insertOcr : Except PyErr Unit
  commitClose : Except PyErr Unit

/-- Body of `store_frame_with_ocr`: connect, insert the frames row, insert the
OCR row when the text is non-empty, commit. -/
def storeFrameWithOcrBody (ocr_text : String) (c : StoreFrameCalls) :
    Except PyErr Bool := do
  c.connect
  c.insertFrame
  if ocr_text ≠ "" then c.insertOcr else pure ()
  c.commitClose
  pure true

/-- `store_frame_with_ocr` as seen by its caller. -/
def storeFrameWithOcrRun (ocr_text : String) (c : StoreFrameCalls) : Bool :=
  pyTry (storeFrameWithOcrBody ocr_text c) false

structure SearchCalls (α β : Type) where
  connect : Except PyErr Unit
  ftsQuery : Except PyErr (List α)
  likeQuery : Except PyErr (List α)
  convertRow : α → Except PyErr β

/-- Body of `search_by_text`: the FTS5 query, with the LIKE query as the
`sqlite3.OperationalError` fallback, then per-row conversion
(`datetime.fromisoformat`, `json.loads`). -/
def searchByTextBody {α β : Type} (c : SearchCalls α β) : Except PyErr (List β) := do
  c.connect
  let rows ← match c.ftsQuery with
    | .ok rs => Except.ok rs
    | .error .opError => c.likeQuery
    | .error e => Except.error e
  rows.mapM c.convertRow

/-- `search_by_text` as seen by its caller. -/
def searchByTextRun {α β : Type} (c : SearchCalls α β) : List β :=
  pyTry (searchByTextBody c) []

structure InsertChunkCalls where
  connect : Except PyErr Unit
  execInsert : Except PyErr ℤ
  commitClose : Except PyErr Unit

/-- Body of `insert_video_chunk`: connect, insert, read `lastrowid`, commit. -/
def insertVideoChunkBody (c : InsertChunkCalls) : Except PyErr ℤ := do
  c.connect
  let cid ← c.execInsert
  c.commitClose
  pure cid

/-- `insert_video_chunk` as seen by its caller. -/
def insertVideoChunkRun (c : InsertChunkCalls) : ℤ :=
  pyTry (insertVideoChunkBody c) (-1)

structure GetLatestCalls (α β : Type) where
  connect : Except PyErr Unit
  queryRow : Except PyErr (Option α)
  convertRow : α → Except PyErr β

/-- Body of `get_latest_frame`: fetch at most one row and convert it. -/
def getLatestFrameBody {α β : Type} (c : GetLatestCalls α β) :
    Except PyErr (Option β) := do
  c.connect
  let row? ← c.queryRow
  match row? with
  | some row => do
      let r ← c.convertRow row
      pure (some r)
  | none => pure none

/-- `get_latest_frame` as seen by its caller. -/
def getLatestFrameRun {α β : Type} (c : GetLatestCalls α β) : Option β :=
  pyTry (getLatestFrameBody c) none

structure BatchCalls (α β : Type) where
  connect : Except PyErr Unit
  query : Except PyErr (List α)
  convertRow : α → Except PyErr β

/-- Body of `get_frames_batch`: fetch all rows and convert them. -/
def getFramesBatchBody {α β : Type} (c : BatchCalls α β) : Except PyErr (List β) := do
  c.connect
  let rows ← c.query
  rows.mapM c.convertRow

/-- `get_frames_batch` as seen by its caller. -/
def getFramesBatchRun {α β : Type} (c : BatchCalls α β) : List β :=
  pyTry (getFramesBatchBody c) []

/-! ## Query rewriting (core/retrieval/query_llm_utils.py)

`datetime.fromisoformat` is the abstract parameter `parseIso` (values on an
abstract integer time line, `none` when it raises), `re.findall` with the
module's time pattern is `findTimeMatches`, and Python `str()` on the parsed
`time_range` object is `pyStrOfTime`. -/

inductive TimeField
  | dict (startStr stopStr : Option String)
  | str (s : String)
deriving Repr, DecidableEq

/-- A successfully JSON-parsed rewrite response: each field is present with the
right type, or absent (`None` models a missing key, a non-list, and JSON
`null` alike, which the source treats the same way). -/
structure RewriteJson where
  dense_queries : Option (List String)
  sparse_queries : Option (List String)
  time_range : Option TimeField
deriving Repr, DecidableEq

/-- Outcome of the LLM call and JSON parse seen by `rewrite_and_time`. -/
inductive RewriteResp
  | callError
  | emptyText
  | unparseable (raw : String)
  | parsed (j : RewriteJson)
deriving Repr, DecidableEq

/-- `s.replace(" ", "T") if "T" not in s else s` (the single-character
replacement done characterwise). -/
def isoFix (s : String) : String :=
  if s.data.contains 'T' then s
  else ⟨s.data.map (fun c => if c = ' ' then 'T' else c)⟩

/-- Python truthiness of an optional string. -/
def pyTruthy : Option String → Bool
  | none => false
  | some s => s != ""

/-- `extract_time_range`: the `"null"` short-circuit, then at least two regex
matches, parse both, swap if reversed; `None` if parsing raises. -/
def extractTimeRange (parseIso : String → Option ℤ)
    (findTimeMatches : String → List String) (text : String) : Option (ℤ × ℤ) :=
  if text == "null" then none
  else
    match findTimeMatches text with
    | m1 :: m2 :: _ =>
        match parseIso m1, parseIso m2 with
        | some a, some b => if b < a then some (b, a) else some (a, b)
        | _, _ => none
    | _ => none

/-- The `time_range` dict branch of `rewrite_and_time`: both bounds must be
truthy; parse them (normalising the space separator), swap if reversed; if
parsing raises, fall back to regex extraction over `str(tr)`. -/
def timeFromDict (parseIso : String → Option ℤ)
    (findTimeMatches : String → List String) (pyStrOfTime : TimeField → String)
    (s e : Option String) : Option (ℤ × ℤ) :=
  if pyTruthy s && pyTruthy e then
    match parseIso (isoFix (s.getD (""))), parseIso (isoFix (e.getD (""))) with
    | some a, some b => if b < a then some (b, a) else some (a, b)
    | _, _ => extractTimeRange parseIso findTimeMatches (pyStrOfTime (.dict s e))
  else none

/-- `rewrite_and_time`: returns `(dense_queries, sparse_queries, time_range)`.
The final `if not dense_queries` / `if not sparse_queries` guards of the source
are kept verbatim. -/
def rewriteAndTime (parseIso : String → Option ℤ)
    (findTimeMatches : String → List String) (pyStrOfTime : TimeField → String)
    (query : String) (enable_rewrite enable_time : Bool) (resp : RewriteResp) :
    List String × List String × Option (ℤ × ℤ) :=
  if ¬(enable_rewrite = true ∨ enable_time = true) then ([query], [query], none)
  else
    match resp with
    | .callError => ([query], [query], none)
    | .emptyText => ([query], [query], none)
    | .unparseable raw =>
        let time_range :=
          if enable_time then extractTimeRange parseIso findTimeMatches raw else none
        let dense : List String := [query]
        let sparse : List String := [query]
        (if dense = [] then [query] else dense,
         if sparse = [] then [query] else sparse, time_range)
    | .parsed j =>
        let dense :=
          if enable_rewrite then
            match j.dense_queries with
            | some l => if l = [] then [query] else l
            | none => [query]
          else [query]
        let sparse :=
          if enable_rewrite then
            match j.sparse_queries with
            | some l => if l = [] then [query] else l
            | none => [query]
          else [query]
        let time_range :=
          if enable_time then
            match j.time_range with
            | some (.dict s e) => timeFromDict parseIso findTimeMatches pyStrOfTime s e
            | some (.str s) => extractTimeRange parseIso findTimeMatches s
            | none => none
          else none
        (if dense = [] then [query] else dense,
         if sparse = [] then [query] else sparse, time_range)

/-! ## OCR-embedding write (core/storage/lancedb_storage.py `store_ocr_embedding`) -/

structure OcrVectorRow where
  frame_id : String
  timestamp : String
  image_path : String
  ocr_text : String
  vector : List ℚ
deriving Repr, DecidableEq

/-- Python `str.strip()` whitespace set (the ASCII whitespace characters). -/
def pyIsSpace (c : Char) : Bool :=
  c == ' ' || c == '\t' || c == '\n' || c == '\r' ||
  c == Char.ofNat 11 || c == Char.ofNat 12

/-- Python `str.strip()`. -/
def pyStrip (s : String) : String :=
  ⟨((s.data.dropWhile pyIsSpace).reverse.dropWhile pyIsSpace).reverse⟩

/-- `not ocr_text or not ocr_text.strip()`. -/
def isBlankText (s : String) : Bool :=
  s == "" || pyStrip s == ""

/-- `LanceDBStorage.store_ocr_embedding`: blank text is skipped with `False`
before anything is written; otherwise the row is appended (creating the table
on first use).  `addOk` is false when the LanceDB append raises, in which case
the exception handler returns `False`. -/
def storeOcrEmbedding (tbl : Option (List OcrVectorRow)) (addOk : Bool)
    (frame_id timestamp image_path ocr_text : String) (text_embedding : List ℚ) :
    Bool × Option (List OcrVectorRow) :=
  if isBlankText ocr_text then (false, tbl)
  else
    let row : OcrVectorRow :=
      { frame_id := frame_id, timestamp := timestamp, image_path := image_path,
        ocr_text := ocr_text, vector := text_embedding }
    if addOk then
      match tbl with
      | none => (true, some [row])
      | some rows => (true, some (rows ++ [row]))
    else (false, tbl)

/-- Number of rows in the (possibly not yet created) OCR vector table. -/
def ocrTableSize : Option (List OcrVectorRow) → ℕ
  | none => 0
  | some rows => rows.length

/-! ## Lemmas about the frame-difference engine -/

theorem compareImages_combined {Img : Type} (histDiff ssimScore : Img → Img → ℚ)
    (a b : Img) (h1 h2 : ℤ) :
    (compareImages histDiff ssimScore a b h1 h2).1 =
      ((compareImages histDiff ssimScore a b h1 h2).2.1 +
        (compareImages histDiff ssimScore a b h1 h2).2.2) / 2 := by
  unfold compareImages
  split
  · norm_num
  · rfl

theorem setScreenState_same {Img : Type} (det : FrameDiffDetector Img) (m : ℤ)
    (st : ScreenDiffState Img) : (setScreenState det m st).screen_states m = some st := by
  simp [setScreenState]

theorem setScreenState_other {Img : Type} (det : FrameDiffDetector Img) (m m' : ℤ)
    (st : ScreenDiffState Img) (h : m' ≠ m) :
    (setScreenState det m st).screen_states m' = det.screen_states m' := by
  simp [setScreenState, h]

theorem setWindowState_same {Img : Type} (det : FrameDiffDetector Img) (k : String)
    (st : WindowDiffState Img) : (setWindowState det k st).window_states k = some st := by
  simp [setWindowState]

theorem setWindowState_other {Img : Type} (det : FrameDiffDetector Img) (k k' : String)
    (st : WindowDiffState Img) (h : k' ≠ k) :
    (setWindowState det k st).window_states k' = det.window_states k' := by
  simp [setWindowState, h]

theorem checkScreenDiff_shape {Img : Type} (histDiff ssimScore : Img → Img → ℚ)
    (det : FrameDiffDetector Img) (o : ScreenObject Img) :
    ∃ st', (checkScreenDiff histDiff ssimScore det o).2 =
      setScreenState det o.monitor_id st' := by
  unfold checkScreenDiff
  dsimp only
  split
  · exact ⟨_, rfl⟩
  · split
    · exact ⟨_, rfl⟩
    · exact ⟨_, rfl⟩

theorem checkWindowDiff_shape {Img : Type} (histDiff ssimScore : Img → Img → ℚ)
    (det : FrameDiffDetector Img) (w : WindowFrame Img) :
    ∃ st', (checkWindowDiff histDiff ssimScore det w).2 =
      setWindowState det (getWindowKey w.app_name w.window_name w.process_id) st' := by
  unfold checkWindowDiff
  dsimp only
  split
  · exact ⟨_, rfl⟩
  · split
    · exact ⟨_, rfl⟩
    · exact ⟨_, rfl⟩

theorem checkScreenDiff_fresh {Img : Type} (histDiff ssimScore : Img → Img → ℚ)
    (det : FrameDiffDetector Img) (o : ScreenObject Img)
    (h : det.screen_states o.monitor_id = none) :
    checkScreenDiff histDiff ssimScore det o =
      (⟨true, 1, 1, 1, "First frame"⟩,
        setScreenState det o.monitor_id
          { previous_image := some o.full_screen_image,
            previous_hash := o.full_screen_hash, frame_count := 1 }) := by
  unfold checkScreenDiff
  rw [h]
  rfl

theorem checkWindowDiff_fresh {Img : Type} (histDiff ssimScore : Img → Img → ℚ)
    (det : FrameDiffDetector Img) (w : WindowFrame Img)
    (h : det.window_states (getWindowKey w.app_name w.window_name w.process_id) = none) :
    checkWindowDiff histDiff ssimScore det w =
      (⟨true, 1, 1, 1, "First frame for this window"⟩,
        setWindowState det (getWindowKey w.app_name w.window_name w.process_id)
          { previous_image := some w.image, previous_hash := w.image_hash,
            frame_count := 1, app_name := w.app_name, window_name := w.window_name }) := by
  unfold checkWindowDiff
  dsimp only
  rw [h]
  rfl

theorem checkScreenDiff_step {Img : Type} (histDiff ssimScore : Img → Img → ℚ)
    (det : FrameDiffDetector Img) (o : ScreenObject Img)
    (st : ScreenDiffState Img) (p : Img)
    (hst : det.screen_states o.monitor_id = some st)
    (hp : st.previous_image = some p) :
    acceptIffThreshold det.screen_threshold (checkScreenDiff histDiff ssimScore det o).1 ∧
    ∃ st' q, (checkScreenDiff histDiff ssimScore det o).2 =
        setScreenState det o.monitor_id st' ∧ st'.previous_image = some q := by
  have hc := compareImages_combined histDiff ssimScore o.full_screen_image p
    o.full_screen_hash st.previous_hash
  unfold checkScreenDiff
  rw [hst]
  simp only [Option.getD_some]
  dsimp only
  rw [hp]
  dsimp only
  split
  case isTrue hcond =>
    constructor
    · simp only [decide_eq_true_eq] at hcond
      unfold acceptIffThreshold
      dsimp only
      rw [← hc]
      exact ⟨fun _ => hcond, fun _ => rfl⟩
    · split
      · exact ⟨_, _, rfl, rfl⟩
      · exact ⟨_, _, rfl, rfl⟩
  case isFalse hcond =>
    constructor
    · simp only [decide_eq_true_eq] at hcond
      unfold acceptIffThreshold
      dsimp only
      rw [← hc]
      constructor
      · intro hfalse
        exact absurd hfalse (by simp)
      · intro hle
        exact absurd hle hcond
    · split
      · exact ⟨_, _, rfl, rfl⟩
      · exact ⟨_, _, rfl, rfl⟩

theorem checkWindowDiff_step {Img : Type} (histDiff ssimScore : Img → Img → ℚ)
    (det : FrameDiffDetector Img) (w : WindowFrame Img)
    (st : WindowDiffState Img) (p : Img)
    (hst : det.window_states (getWindowKey w.app_name w.window_name w.process_id) = some st)
    (hp : st.previous_image = some p) :
    acceptIffThreshold det.window_threshold (checkWindowDiff histDiff ssimScore det w).1 ∧
    ∃ st' q, (checkWindowDiff histDiff ssimScore det w).2 =
        setWindowState det (getWindowKey w.app_name w.window_name w.process_id) st' ∧
        st'.previous_image = some q := by
  have hc := compareImages_combined histDiff ssimScore w.image p
    w.image_hash st.previous_hash
  unfold checkWindowDiff
  dsimp only
  rw [hst]
  simp only [Option.getD_some]
  rw [hp]
  dsimp only
  split
  case isTrue hcond =>
    constructor
    · simp only [decide_eq_true_eq] at hcond
      unfold acceptIffThreshold
      dsimp only
      rw [← hc]
      exact ⟨fun _ => hcond, fun _ => rfl⟩
    · exact ⟨_, _, rfl, rfl⟩
  case isFalse hcond =>
    constructor
    · simp only [decide_eq_true_eq] at hcond
      unfold acceptIffThreshold
      dsimp only
      rw [← hc]
      constructor
      · intro hfalse
        exact absurd hfalse (by simp)
      · intro hle
        exact absurd hle hcond
    · exact ⟨_, _, rfl, rfl⟩

theorem screenStream_tail_good {Img : Type} (histDiff ssimScore : Img → Img → ℚ)
    (m : ℤ) :
    ∀ (calls : List (DiffCall Img)) (det : FrameDiffDetector Img)
      (st : ScreenDiffState Img) (p : Img),
      det.screen_states m = some st → st.previous_image = some p →
      ∀ r ∈ screenStream histDiff ssimScore m det calls,
        acceptIffThreshold det.screen_threshold r := by
  intro calls
  induction calls with
  | nil =>
    intro det st p _ _ r hr
    simp [screenStream] at hr
  | cons c rest ih =>
    intro det st p h hp r hr
    cases c with
    | screen o =>
      by_cases hmo : o.monitor_id = m
      · have hst : det.screen_states o.monitor_id = some st := by rw [hmo]; exact h
        obtain ⟨hiff, st', q, hdet, hq⟩ :=
          checkScreenDiff_step histDiff ssimScore det o st p hst hp
        simp only [screenStream, diffStep] at hr
        rw [if_pos hmo] at hr
        rcases List.mem_cons.mp hr with hr1 | hr2
        · exact hr1 ▸ hiff
        · have hsome : ((checkScreenDiff histDiff ssimScore det o).2).screen_states m =
              some st' := by
            rw [hdet, hmo]
            exact setScreenState_same _ _ _
          have hgood := ih _ st' q hsome hq r hr2
          rw [hdet] at hgood
          exact hgood
      · obtain ⟨st₂, hdet⟩ := checkScreenDiff_shape histDiff ssimScore det o
        simp only [screenStream, diffStep] at hr
        rw [if_neg hmo] at hr
        have hpres : ((checkScreenDiff histDiff ssimScore det o).2).screen_states m =
            some st := by
          rw [hdet, setScreenState_other _ _ _ _ (fun hh => hmo hh.symm)]
          exact h
        have hgood := ih _ st p hpres hp r hr
        rw [hdet] at hgood
        exact hgood
    | window w =>
      obtain ⟨st₂, hdet⟩ := checkWindowDiff_shape histDiff ssimScore det w
      simp only [screenStream, diffStep] at hr
      have hpres : ((checkWindowDiff histDiff ssimScore det w).2).screen_states m =
          some st := by
        rw [hdet]
        exact h
      have hgood := ih _ st p hpres hp r hr
      rw [hdet] at hgood
      exact hgood

theorem windowStream_tail_good {Img : Type} (histDiff ssimScore : Img → Img → ℚ)
    (k : String) :
    ∀ (calls : List (DiffCall Img)) (det : FrameDiffDetector Img)
      (st : WindowDiffState Img) (p : Img),
      det.window_states k = some st → st.previous_image = some p →
      ∀ r ∈ windowStream histDiff ssimScore k det calls,
        acceptIffThreshold det.window_threshold r := by
  intro calls
  induction calls with
  | nil =>
    intro det st p _ _ r hr
    simp [windowStream] at hr
  | cons c rest ih =>
    intro det st p h hp r hr
    cases c with
    | screen o =>
      obtain ⟨st₂, hdet⟩ := checkScreenDiff_shape histDiff ssimScore det o
      simp only [windowStream, diffStep] at hr
      have hpres : ((checkScreenDiff histDiff ssimScore det o).2).window_states k =
          some st := by
        rw [hdet]
        exact h
      have hgood := ih _ st p hpres hp r hr
      rw [hdet] at hgood
      exact hgood
    | window w =>
      by_cases hkw : getWindowKey w.app_name w.window_name w.process_id = k
      · have hst : det.window_states (getWindowKey w.app_name w.window_name w.process_id) =
            some st := by rw [hkw]; exact h
        obtain ⟨hiff, st', q, hdet, hq⟩ :=
          checkWindowDiff_step histDiff ssimScore det w st p hst hp
        simp only [windowStream, diffStep] at hr
        rw [if_pos hkw] at hr
        rcases List.mem_cons.mp hr with hr1 | hr2
        · exact hr1 ▸ hiff
        · have hsome : ((checkWindowDiff histDiff ssimScore det w).2).window_states k =
              some st' := by
            rw [hdet, hkw]
            exact setWindowState_same _ _ _
          have hgood := ih _ st' q hsome hq r hr2
          rw [hdet] at hgood
          exact hgood
      · obtain ⟨st₂, hdet⟩ := checkWindowDiff_shape histDiff ssimScore det w
        simp only [windowStream, diffStep] at hr
        rw [if_neg hkw] at hr
        have hpres : ((checkWindowDiff histDiff ssimScore det w).2).window_states k =
            some st := by
          rw [hdet, setWindowState_other _ _ _ _ (fun hh => hkw hh.symm)]
          exact h
        have hgood := ih _ st p hpres hp r hr
        rw [hdet] at hgood
        exact hgood

theorem screenStream_fresh_spec {Img : Type} (histDiff ssimScore : Img → Img → ℚ)
    (m : ℤ) :
    ∀ (calls : List (DiffCall Img)) (det : FrameDiffDetector Img),
      det.screen_states m = none →
      screenStream histDiff ssimScore m det calls = [] ∨
      ∃ tail, screenStream histDiff ssimScore m det calls =
          ⟨true, 1, 1, 1, "First frame"⟩ :: tail ∧
        ∀ r ∈ tail, acceptIffThreshold det.screen_threshold r := by
  intro calls
  induction calls with
  | nil =>
    intro det _
    left
    rfl
  | cons c rest ih =>
    intro det h
    cases c with
    | screen o =>
      by_cases hmo : o.monitor_id = m
      · right
        have hfresh : det.screen_states o.monitor_id = none := by rw [hmo]; exact h
        have hck := checkScreenDiff_fresh histDiff ssimScore det o hfresh
        have h2 : (checkScreenDiff histDiff ssimScore det o).2 =
            setScreenState det o.monitor_id
              { previous_image := some o.full_screen_image,
                previous_hash := o.full_screen_hash, frame_count := 1 } :=
          congrArg Prod.snd hck
        have h1 : (checkScreenDiff histDiff ssimScore det o).1 =
            ⟨true, 1, 1, 1, "First frame"⟩ := congrArg Prod.fst hck
        refine ⟨screenStream histDiff ssimScore m
          (checkScreenDiff histDiff ssimScore det o).2 rest, ?_, ?_⟩
        · simp only [screenStream, diffStep]
          rw [if_pos hmo, h1]
        · intro r hr
          have hsome : ((checkScreenDiff histDiff ssimScore det o).2).screen_states m =
              some { previous_image := some o.full_screen_image,
                     previous_hash := o.full_screen_hash, frame_count := 1 } := by
            rw [h2, hmo]
            exact setScreenState_same _ _ _
          have hgood := screenStream_tail_good histDiff ssimScore m rest _ _
            o.full_screen_image hsome rfl r hr
          rw [h2] at hgood
          exact hgood
      · obtain ⟨st₂, hdet⟩ := checkScreenDiff_shape histDiff ssimScore det o
        have hpres : ((checkScreenDiff histDiff ssimScore det o).2).screen_states m =
            none := by
          rw [hdet, setScreenState_other _ _ _ _ (fun hh => hmo hh.symm)]
          exact h
        have hrest := ih (checkScreenDiff histDiff ssimScore det o).2 hpres
        simp only [screenStream, diffStep]
        rw [if_neg hmo, hdet]
        rw [hdet] at hrest
        exact hrest
    | window w =>
      obtain ⟨st₂, hdet⟩ := checkWindowDiff_shape histDiff ssimScore det w
      have hpres : ((checkWindowDiff histDiff ssimScore det w).2).screen_states m =
          none := by
        rw [hdet]
        exact h
      have hrest := ih (checkWindowDiff histDiff ssimScore det w).2 hpres
      simp only [screenStream, diffStep]
      rw [hdet]
      rw [hdet] at hrest
      exact hrest

theorem windowStream_fresh_spec {Img : Type} (histDiff ssimScore : Img → Img → ℚ)
    (k : String) :
    ∀ (calls : List (DiffCall Img)) (det : FrameDiffDetector Img),
      det.window_states k = none →
      windowStream histDiff ssimScore k det calls = [] ∨
      ∃ tail, windowStream histDiff ssimScore k det calls =
          ⟨true, 1, 1, 1, "First frame for this window"⟩ :: tail ∧
        ∀ r ∈ tail, acceptIffThreshold det.window_threshold r := by
  intro calls
  induction calls with
  | nil =>
    intro det _
    left
    rfl
  | cons c rest ih =>
    intro det h
    cases c with
    | screen o =>
      obtain ⟨st₂, hdet⟩ := checkScreenDiff_shape histDiff ssimScore det o
      have hpres : ((checkScreenDiff histDiff ssimScore det o).2).window_states k =
          none := by
        rw [hdet]
        exact h
      have hrest := ih (checkScreenDiff histDiff ssimScore det o).2 hpres
      simp only [windowStream, diffStep]
      rw [hdet]
      rw [hdet] at hrest
      exact hrest
    | window w =>
      by_cases hkw : getWindowKey w.app_name w.window_name w.process_id = k
      · right
        have hfresh : det.window_states
            (getWindowKey w.app_name w.window_name w.process_id) = none := by
          rw [hkw]; exact h
        have hck := checkWindowDiff_fresh histDiff ssimScore det w hfresh
        have h2 : (checkWindowDiff histDiff ssimScore det w).2 =
            setWindowState det (getWindowKey w.app_name w.window_name w.process_id)
              { previous_image := some w.image, previous_hash := w.image_hash,
                frame_count := 1, app_name := w.app_name,
                window_name := w.window_name } :=
          congrArg Prod.snd hck
        have h1 : (checkWindowDiff histDiff ssimScore det w).1 =
            ⟨true, 1, 1, 1, "First frame for this window"⟩ := congrArg Prod.fst hck
        refine ⟨windowStream histDiff ssimScore k
          (checkWindowDiff histDiff ssimScore det w).2 rest, ?_, ?_⟩
        · simp only [windowStream, diffStep]
          rw [if_pos hkw, h1]
        · intro r hr
          have hsome : ((checkWindowDiff histDiff ssimScore det w).2).window_states k =
              some { previous_image := some w.image, previous_hash := w.image_hash,
                     frame_count := 1, app_name := w.app_name,
                     window_name := w.window_name } := by
            rw [h2, hkw]
            exact setWindowState_same _ _ _
          have hgood := windowStream_tail_good histDiff ssimScore k rest _ _
            w.image hsome rfl r hr
          rw [h2] at hgood
          exact hgood
      · obtain ⟨st₂, hdet⟩ := checkWindowDiff_shape histDiff ssimScore det w
        have hpres : ((checkWindowDiff histDiff ssimScore det w).2).window_states k =
            none := by
          rw [hdet, setWindowState_other _ _ _ _ (fun hh => hkw hh.symm)]
          exact h
        have hrest := ih (checkWindowDiff histDiff ssimScore det w).2 hpres
        simp only [windowStream, diffStep]
        rw [if_neg hkw, hdet]
        rw [hdet] at hrest
        exact hrest

/-- C1: for every stream of the frame-difference engine (the per-monitor screen
stream `m` and the per-window stream `k`, over any interleaved sequence of
engine calls starting from a state in which the stream has seen no frame), the
first result accepts with diff score 1.0, and every subsequent result accepts
iff the combined score `(histogram_diff + ssim_diff) / 2` is at least the
stream's threshold (so equality accepts). -/
theorem frame_diff_first_frame_and_threshold {Img : Type}
    (histDiff ssimScore : Img → Img → ℚ) (det : FrameDiffDetector Img)
    (m : ℤ) (k : String) (calls : List (DiffCall Img))
    (hm : det.screen_states m = none) (hk : det.window_states k = none) :
    (∀ r, (screenStream histDiff ssimScore m det calls).head? = some r →
        r.should_store = true ∧ r.diff_score = 1) ∧
    (∀ i r, 0 < i → (screenStream histDiff ssimScore m det calls).get? i = some r →
        acceptIffThreshold det.screen_threshold r) ∧
    (∀ r, (windowStream histDiff ssimScore k det calls).head? = some r →
        r.should_store = true ∧ r.diff_score = 1) ∧
    (∀ i r, 0 < i → (windowStream histDiff ssimScore k det calls).get? i = some r →
        acceptIffThreshold det.window_threshold r) := by
  rcases screenStream_fresh_spec histDiff ssimScore m calls det hm with hs | ⟨tailS, heqS, htailS⟩
  case inl =>
    rcases windowStream_fresh_spec histDiff ssimScore k calls det hk with hw | ⟨tailW, heqW, htailW⟩
    case inl =>
      refine ⟨?_, ?_, ?_, ?_⟩
      · intro r hr; rw [hs] at hr; simp at hr
      · intro i r _ hr; rw [hs] at hr; simp at hr
      · intro r hr; rw [hw] at hr; simp at hr
      · intro i r _ hr; rw [hw] at hr; simp at hr
    case inr =>
      refine ⟨?_, ?_, ?_, ?_⟩
      · intro r hr; rw [hs] at hr; simp at hr
      · intro i r _ hr; rw [hs] at hr; simp at hr
      · intro r hr
        rw [heqW, List.head?_cons] at hr
        injection hr with hr
        exact hr ▸ ⟨rfl, rfl⟩
      · intro i r hi hr
        obtain ⟨j, rfl⟩ : ∃ j, i = j + 1 := ⟨i - 1, by omega⟩
        rw [heqW, List.get?_cons_succ] at hr
        exact htailW r (List.get?_mem hr)
  case inr =>
    rcases windowStream_fresh_spec histDiff ssimScore k calls det hk with hw | ⟨tailW, heqW, htailW⟩
    case inl =>
      refine ⟨?_, ?_, ?_, ?_⟩
      · intro r hr
        rw [heqS, List.head?_cons] at hr
        injection hr with hr
        exact hr ▸ ⟨rfl, rfl⟩
      · intro i r hi hr
        obtain ⟨j, rfl⟩ : ∃ j, i = j + 1 := ⟨i - 1, by omega⟩
        rw [heqS, List.get?_cons_succ] at hr
        exact htailS r (List.get?_mem hr)
      · intro r hr; rw [hw] at hr; simp at hr
      · intro i r _ hr; rw [hw] at hr; simp at hr
    case inr =>
      refine ⟨?_, ?_, ?_, ?_⟩
      · intro r hr
        rw [heqS, List.head?_cons] at hr
        injection hr with hr
        exact hr ▸ ⟨rfl, rfl⟩
      · intro i r hi hr
        obtain ⟨j, rfl⟩ : ∃ j, i = j + 1 := ⟨i - 1, by omega⟩
        rw [heqS, List.get?_cons_succ] at hr
        exact htailS r (List.get?_mem hr)
      · intro r hr
        rw [heqW, List.head?_cons] at hr
        injection hr with hr
        exact hr ▸ ⟨rfl, rfl⟩
      · intro i r hi hr
        obtain ⟨j, rfl⟩ : ∃ j, i = j + 1 := ⟨i - 1, by omega⟩
        rw [heqW, List.get?_cons_succ] at hr
        exact htailW r (List.get?_mem hr)

/-- Witness for C1: two screen frames on monitor 0 with constant metrics
(histogram distance 1, SSIM 0), so the second frame's combined score is 1 and
it is accepted. -/
theorem frame_diff_first_frame_and_threshold_witness :
    acceptIffThreshold (0 : ℚ)
      { should_store := true, diff_score := 1, histogram_diff := 1,
        ssim_diff := 1, reason := "Changed" } := by
  have h := frame_diff_first_frame_and_threshold
    (fun (_ _ : Unit) => (1 : ℚ)) (fun _ _ => (0 : ℚ))
    { screen_threshold := 0, window_threshold := 0,
      use_max_average := true, screen_states := fun _ => none,
      window_states := fun _ => none }
    0 ("k")
    [DiffCall.screen ⟨0, (), 1⟩, DiffCall.screen ⟨0, (), 2⟩]
    rfl rfl
  refine h.2.1 1 _ (by norm_num) ?_
  norm_num [screenStream, diffStep, checkScreenDiff, compareImages, setScreenState]

/-! ## Lemmas about the video chunk writer -/

theorem succ_div_mod_of_mod_lt (N i : ℕ) (hN : 0 < N) (h : i % N + 1 < N) :
    (i + 1) / N = i / N ∧ (i + 1) % N = i % N + 1 := by
  have key : i + 1 = N * (i / N) + (i % N + 1) := by
    have hdm := Nat.div_add_mod i N
    omega
  constructor
  · rw [key, Nat.mul_add_div hN, Nat.div_eq_of_lt h, Nat.add_zero]
  · rw [key, Nat.mul_add_mod, Nat.mod_eq_of_lt h]

theorem succ_div_mod_of_mod_eq (N i : ℕ) (hN : 0 < N) (h : i % N + 1 = N) :
    (i + 1) / N = i / N + 1 ∧ (i + 1) % N = 0 := by
  have key : i + 1 = N * (i / N + 1) := by
    have hdm := Nat.div_add_mod i N
    rw [Nat.mul_add, Nat.mul_one]
    omega
  constructor
  · rw [key, Nat.mul_div_cancel_left _ hN]
  · rw [key, Nat.mul_mod_right]

theorem writeFrame_rollover (w : VideoChunkWriter)
    (h : w.frames_per_chunk ≤ (w.frame_count : ℤ)) :
    writeFrame w =
      ({ w with ffmpeg_open := true, frame_count := 1,
                chunks_started := w.chunks_started + 1 },
       w.chunks_started, 0) := by
  rw [writeFrame, if_pos (Or.inr h)]
  rfl

theorem writeFrame_closed (w : VideoChunkWriter) (h : w.ffmpeg_open = false) :
    writeFrame w =
      ({ w with ffmpeg_open := true, frame_count := 1,
                chunks_started := w.chunks_started + 1 },
       w.chunks_started, 0) := by
  rw [writeFrame, if_pos (Or.inl h)]
  rfl

theorem writeFrame_incr (w : VideoChunkWriter) (hopen : w.ffmpeg_open = true)
    (h : ¬ w.frames_per_chunk ≤ (w.frame_count : ℤ)) :
    writeFrame w =
      ({ w with frame_count := w.frame_count + 1 },
       w.chunks_started - 1, w.frame_count) := by
  have hcond : ¬ (w.ffmpeg_open = false ∨ w.frames_per_chunk ≤ (w.frame_count : ℤ)) := by
    rintro (h1 | h2)
    · rw [hopen] at h1
      exact Bool.noConfusion h1
    · exact h h2
  rw [writeFrame, if_neg hcond]

theorem runWrites_succ_state (fps : ℚ) (dur : ℤ) (N : ℕ) (hN : 1 ≤ N)
    (hfpc : (initWriter fps dur).frames_per_chunk = (N : ℤ)) :
    ∀ i : ℕ, runWrites (initWriter fps dur) (i + 1) =
      { initWriter fps dur with
        ffmpeg_open := true, frame_count := i % N + 1, chunks_started := i / N + 1 } := by
  intro i
  induction i with
  | zero =>
    show (writeFrame (initWriter fps dur)).1 = _
    rw [writeFrame_closed (initWriter fps dur) rfl]
    simp [initWriter]
  | succ i ih =>
    have hstep : runWrites (initWriter fps dur) (i + 1 + 1) =
        (writeFrame (runWrites (initWriter fps dur) (i + 1))).1 := rfl
    rw [hstep, ih]
    by_cases hc : i % N + 1 = N
    · obtain ⟨hdiv, hmod⟩ := succ_div_mod_of_mod_eq N i (by omega) hc
      have h1 : ({ initWriter fps dur with
          ffmpeg_open := true, frame_count := i % N + 1,
          chunks_started := i / N + 1 } : VideoChunkWriter).frames_per_chunk ≤
          (({ initWriter fps dur with
          ffmpeg_open := true, frame_count := i % N + 1,
          chunks_started := i / N + 1 } : VideoChunkWriter).frame_count : ℤ) := by
        show (initWriter fps dur).frames_per_chunk ≤ ((i % N + 1 : ℕ) : ℤ)
        rw [hfpc, hc]
      rw [writeFrame_rollover _ h1, hdiv, hmod]
    · have hmlt : i % N < N := Nat.mod_lt i (by omega)
      have hlt : i % N + 1 < N := lt_of_le_of_ne (by omega) hc
      obtain ⟨hdiv, hmod⟩ := succ_div_mod_of_mod_lt N i (by omega) hlt
      have h1 : ¬ ({ initWriter fps dur with
          ffmpeg_open := true, frame_count := i % N + 1,
          chunks_started := i / N + 1 } : VideoChunkWriter).frames_per_chunk ≤
          (({ initWriter fps dur with
          ffmpeg_open := true, frame_count := i % N + 1,
          chunks_started := i / N + 1 } : VideoChunkWriter).frame_count : ℤ) := by
        show ¬ (initWriter fps dur).frames_per_chunk ≤ ((i % N + 1 : ℕ) : ℤ)
        rw [hfpc]
        intro hle
        have hle2 : N ≤ i % N + 1 := by exact_mod_cast hle
        omega
      rw [writeFrame_incr _ rfl h1, hdiv, hmod]

/-- C2: for every writer configuration whose frames-per-chunk count
`int(fps * chunk_duration)` is some `N ≥ 1`, the `i`-th successful write
(0-based) lands in chunk `i / N` at offset `i % N`.  In particular offsets
within one chunk are consecutive starting at 0, the frame at index
`k*N + (N-1)` is the last of chunk `k` with offset `N-1`, the frame at index
`(k+1)*N` starts chunk `k+1` with offset 0, no chunk is open before the first
write, and after `j+1` writes exactly `j / N + 1` chunk files have been
opened (one on the first write and a new one exactly at each multiple of `N`). -/
theorem video_chunk_rollover (fps : ℚ) (dur : ℤ) (N : ℕ) (hN : 1 ≤ N)
    (hfpc : (initWriter fps dur).frames_per_chunk = (N : ℤ)) :
    (∀ i : ℕ, nthWriteResult (initWriter fps dur) i = (i / N, i % N)) ∧
    (∀ k : ℕ, nthWriteResult (initWriter fps dur) (k * N + (N - 1)) = (k, N - 1) ∧
      nthWriteResult (initWriter fps dur) ((k + 1) * N) = (k + 1, 0)) ∧
    (runWrites (initWriter fps dur) 0).chunks_started = 0 ∧
    (∀ j : ℕ, (runWrites (initWriter fps dur) (j + 1)).chunks_started = j / N + 1) := by
  have hmain : ∀ i : ℕ, nthWriteResult (initWriter fps dur) i = (i / N, i % N) := by
    intro i
    cases i with
    | zero =>
      show (writeFrame (initWriter fps dur)).2 = _
      rw [writeFrame_closed (initWriter fps dur) rfl]
      simp [initWriter]
    | succ j =>
      have hstate := runWrites_succ_state fps dur N hN hfpc j
      show (writeFrame (runWrites (initWriter fps dur) (j + 1))).2 = _
      rw [hstate]
      by_cases hc : j % N + 1 = N
      · obtain ⟨hdiv, hmod⟩ := succ_div_mod_of_mod_eq N j (by omega) hc
        have h1 : ({ initWriter fps dur with
            ffmpeg_open := true, frame_count := j % N + 1,
            chunks_started := j / N + 1 } : VideoChunkWriter).frames_per_chunk ≤
            (({ initWriter fps dur with
            ffmpeg_open := true, frame_count := j % N + 1,
            chunks_started := j / N + 1 } : VideoChunkWriter).frame_count : ℤ) := by
          show (initWriter fps dur).frames_per_chunk ≤ ((j % N + 1 : ℕ) : ℤ)
          rw [hfpc, hc]
        rw [writeFrame_rollover _ h1, hdiv, hmod]
      · have hmlt : j % N < N := Nat.mod_lt j (by omega)
        have hlt : j % N + 1 < N := lt_of_le_of_ne (by omega) hc
        obtain ⟨hdiv, hmod⟩ := succ_div_mod_of_mod_lt N j (by omega) hlt
        have h1 : ¬ ({ initWriter fps dur with
            ffmpeg_open := true, frame_count := j % N + 1,
            chunks_started := j / N + 1 } : VideoChunkWriter).frames_per_chunk ≤
            (({ initWriter fps dur with
            ffmpeg_open := true, frame_count := j % N + 1,
            chunks_started := j / N + 1 } : VideoChunkWriter).frame_count : ℤ) := by
          show ¬ (initWriter fps dur).frames_per_chunk ≤ ((j % N + 1 : ℕ) : ℤ)
          rw [hfpc]
          intro hle
          have hle2 : N ≤ j % N + 1 := by exact_mod_cast hle
          omega
        rw [writeFrame_incr _ rfl h1, hdiv, hmod]
        simp
  refine ⟨hmain, ?_, rfl, ?_⟩
  · intro k
    constructor
    · rw [hmain (k * N + (N - 1))]
      have hlt : N - 1 < N := by omega
      rw [Nat.add_comm (k * N) (N - 1), Nat.add_mul_div_right _ _ (by omega : 0 < N),
        Nat.div_eq_of_lt hlt, Nat.zero_add, Nat.add_mul_mod_self_right,
        Nat.mod_eq_of_lt hlt]
    · rw [hmain ((k + 1) * N)]
      rw [Nat.mul_div_cancel _ (by omega : 0 < N), Nat.mul_mod_left]
  · intro j
    rw [runWrites_succ_state fps dur N hN hfpc j]

/-- Witness for C2: fps 1, chunk duration 3 seconds gives N = 3; the fourth
write (index 3) starts the second chunk at offset 0. -/
theorem video_chunk_rollover_witness :
    nthWriteResult (initWriter 1 3) 3 = (1, 0) := by
  have h := video_chunk_rollover 1 3 3 (by norm_num)
    (by norm_num [initWriter, ratTrunc])
  have h3 := h.1 3
  simpa using h3

/-! ## Lemmas about the relational store -/

theorem storeFrameWithOcrDb_chunks (db : Db) (fid ts ip t tj eng : String)
    (conf : ℚ) (dev meta : String) :
    (storeFrameWithOcrDb db fid ts ip t tj eng conf dev meta).video_chunks =
        db.video_chunks ∧
    (storeFrameWithOcrDb db fid ts ip t tj eng conf dev meta).window_chunks =
        db.window_chunks := by
  unfold storeFrameWithOcrDb
  split <;> exact ⟨rfl, rfl⟩

theorem storeSubFrameOcr_chunks (db : Db) (sid t tj eng : String) (conf : ℚ) :
    (storeSubFrameOcr db sid t tj eng conf).video_chunks = db.video_chunks ∧
    (storeSubFrameOcr db sid t tj eng conf).window_chunks = db.window_chunks := by
  unfold storeSubFrameOcr
  split <;> exact ⟨rfl, rfl⟩

theorem addFrameSubframeMapping_chunks (db : Db) (fid sid : String) :
    (addFrameSubframeMapping db fid sid).video_chunks = db.video_chunks ∧
    (addFrameSubframeMapping db fid sid).window_chunks = db.window_chunks := by
  unfold addFrameSubframeMapping
  split <;> exact ⟨rfl, rfl⟩

theorem applyIngestOps_chunk_counts_zero :
    ∀ (ops : List IngestOp) (db : Db),
      (∀ c ∈ db.video_chunks, c.frame_count = 0) →
      (∀ c ∈ db.window_chunks, c.frame_count = 0) →
      (∀ c ∈ (applyIngestOps db ops).video_chunks, c.frame_count = 0) ∧
      (∀ c ∈ (applyIngestOps db ops).window_chunks, c.frame_count = 0) := by
  intro ops
  induction ops with
  | nil =>
    intro db h1 h2
    exact ⟨h1, h2⟩
  | cons op rest ih =>
    intro db h1 h2
    refine ih (applyIngestOp db op) ?_ ?_
    · intro c hc
      cases op with
      | insertVideoChunk fp mid dev fps =>
        simp only [applyIngestOp, insertVideoChunk] at hc
        rcases List.mem_append.mp hc with h | h
        · exact h1 c h
        · rw [List.mem_singleton.mp h]
      | insertWindowChunk fp app win mid fps => exact h1 c hc
      | storeFrameWithVideoRef fid ts vcid off mid ih2 dev meta => exact h1 c hc
      | storeFrameWithOcr fid ts ip t tj eng conf dev meta =>
        rw [show (applyIngestOp db (.storeFrameWithOcr fid ts ip t tj eng conf dev meta)) =
          storeFrameWithOcrDb db fid ts ip t tj eng conf dev meta from rfl,
          (storeFrameWithOcrDb_chunks db fid ts ip t tj eng conf dev meta).1] at hc
        exact h1 c hc
      | storeSubFrame sid ts wcid off app win pid foc ih2 => exact h1 c hc
      | storeSubFrameOcr sid t tj eng conf =>
        rw [show (applyIngestOp db (.storeSubFrameOcr sid t tj eng conf)) =
          storeSubFrameOcr db sid t tj eng conf from rfl,
          (storeSubFrameOcr_chunks db sid t tj eng conf).1] at hc
        exact h1 c hc
      | addFrameSubframeMapping fid sid =>
        rw [show (applyIngestOp db (.addFrameSubframeMapping fid sid)) =
          addFrameSubframeMapping db fid sid from rfl,
          (addFrameSubframeMapping_chunks db fid sid).1] at hc
        exact h1 c hc
    · intro c hc
      cases op with
      | insertVideoChunk fp mid dev fps => exact h2 c hc
      | insertWindowChunk fp app win mid fps =>
        simp only [applyIngestOp, insertWindowChunk] at hc
        rcases List.mem_append.mp hc with h | h
        · exact h2 c h
        · rw [List.mem_singleton.mp h]
      | storeFrameWithVideoRef fid ts vcid off mid ih2 dev meta => exact h2 c hc
      | storeFrameWithOcr fid ts ip t tj eng conf dev meta =>
        rw [show (applyIngestOp db (.storeFrameWithOcr fid ts ip t tj eng conf dev meta)) =
          storeFrameWithOcrDb db fid ts ip t tj eng conf dev meta from rfl,
          (storeFrameWithOcrDb_chunks db fid ts ip t tj eng conf dev meta).2] at hc
        exact h2 c hc
      | storeSubFrame sid ts wcid off app win pid foc ih2 => exact h2 c hc
      | storeSubFrameOcr sid t tj eng conf =>
        rw [show (applyIngestOp db (.storeSubFrameOcr sid t tj eng conf)) =
          storeSubFrameOcr db sid t tj eng conf from rfl,
          (storeSubFrameOcr_chunks db sid t tj eng conf).2] at hc
        exact h2 c hc
      | addFrameSubframeMapping fid sid =>
        rw [show (applyIngestOp db (.addFrameSubframeMapping fid sid)) =
          addFrameSubframeMapping db fid sid from rfl,
          (addFrameSubframeMapping_chunks db fid sid).2] at hc
        exact h2 c hc

/-- C3: the steady-state ingest pipeline never updates a chunk's
`frame_count` (no pipeline write calls `update_chunk_frame_count`), so after
the concrete run below — one video chunk inserted, one frame stored
referencing it — the chunk row still carries `frame_count = 0` while exactly
one frames row references it, violating the claimed invariant
`frame_count = number of referencing frames`. -/
theorem chunk_frame_count_not_maintained :
    (applyIngestOps emptyDb
        [IngestOp.insertVideoChunk ("chunk0.mp4") 0 ("monitor_0") 1,
         IngestOp.storeFrameWithVideoRef ("f1") ("2025-01-01T00:00:00+00:00") 1 0 0 42
           ("monitor_0") ("\x7b\x7d")]).video_chunks.map
        (fun c => (c.id, c.frame_count)) = [(1, 0)] ∧
    framesReferencingChunk
      (applyIngestOps emptyDb
        [IngestOp.insertVideoChunk ("chunk0.mp4") 0 ("monitor_0") 1,
         IngestOp.storeFrameWithVideoRef ("f1") ("2025-01-01T00:00:00+00:00") 1 0 0 42
           ("monitor_0") ("\x7b\x7d")]) 1 = 1 := by
  constructor
  · rfl
  · rfl

/-- C4: the OCR write for a chunked-mode frame rewrites the frames row with
`INSERT OR REPLACE` binding only five columns, so the columns the claim says
stay unchanged are in fact clobbered: `video_chunk_id`, `offset_index` and
`image_hash` become NULL and `monitor_id` falls back to the schema default 0.
Concretely, after `store_frame_with_video_ref` the row carries
`(some 1, some 0, 2, some 42)` and after the subsequent
`store_frame_with_ocr` it carries `(none, none, 0, none)`. -/
theorem ocr_write_clobbers_frame_row :
    ((findFrame (storeFrameWithVideoRef emptyDb ("f1") ("2025-01-01T00:00:00+00:00")
        1 0 2 42 ("mac") ("\x7b\x7d")) ("f1")).map
      (fun f => (f.video_chunk_id, f.offset_index, f.monitor_id, f.image_hash)) =
      some (some 1, some 0, 2, some 42)) ∧
    ((findFrame (storeFrameWithOcrDb
        (storeFrameWithVideoRef emptyDb ("f1") ("2025-01-01T00:00:00+00:00")
          1 0 2 42 ("mac") ("\x7b\x7d"))
        ("f1") ("2025-01-01T00:00:00+00:00") ("video_chunk:1:0") ("hello") ("")
        ("pytesseract") 0 ("mac") ("\x7b\x7d")) ("f1")).map
      (fun f => (f.video_chunk_id, f.offset_index, f.monitor_id, f.image_hash)) =
      some (none, none, 0, none)) := by
  constructor
  · rfl
  · rfl

/-! ## Lemmas about the hybrid merge -/

theorem mergeLoop_eq :
    ∀ (l : List RFrame) (fs : List RFrame) (seen : List String),
      mergeLoop (fs, seen) l = (fs ++ specDedup seen l, seenAfter seen l) := by
  intro l
  induction l with
  | nil =>
    intro fs seen
    simp [mergeLoop, specDedup, seenAfter]
  | cons r rest ih =>
    intro fs seen
    by_cases h : r.frame_id ∈ seen
    · simp [mergeLoop, specDedup, seenAfter, h, ih]
    · simp [mergeLoop, specDedup, seenAfter, h, ih]

theorem seenAfter_mem :
    ∀ (l : List RFrame) (seen : List String) (x : String),
      x ∈ seenAfter seen l ↔ x ∈ seen ∨ x ∈ l.map (fun r => r.frame_id) := by
  intro l
  induction l with
  | nil =>
    intro seen x
    simp [seenAfter]
  | cons r rest ih =>
    intro seen x
    by_cases h : r.frame_id ∈ seen
    · rw [seenAfter, if_pos h, ih]
      simp only [List.map_cons, List.mem_cons]
      constructor
      · rintro (hx | hx)
        · exact Or.inl hx
        · exact Or.inr (Or.inr hx)
      · rintro (hx | hx | hx)
        · exact Or.inl hx
        · exact Or.inl (hx ▸ h)
        · exact Or.inr hx
    · rw [seenAfter, if_neg h, ih]
      simp only [List.map_cons, List.mem_cons]
      tauto

theorem specDedup_seen_congr :
    ∀ (l : List RFrame) (s1 s2 : List String),
      (∀ x, x ∈ s1 ↔ x ∈ s2) → specDedup s1 l = specDedup s2 l := by
  intro l
  induction l with
  | nil =>
    intro s1 s2 _
    rfl
  | cons r rest ih =>
    intro s1 s2 hs
    rw [specDedup, specDedup]
    by_cases h : r.frame_id ∈ s1
    · rw [if_pos h, if_pos ((hs _).mp h), ih s1 s2 hs]
    · rw [if_neg h, if_neg (fun hx => h ((hs _).mpr hx))]
      have hs' : ∀ x, x ∈ r.frame_id :: s1 ↔ x ∈ r.frame_id :: s2 := by
        intro x
        simp only [List.mem_cons]
        constructor
        · rintro (hx | hx)
          · exact Or.inl hx
          · exact Or.inr ((hs x).mp hx)
        · rintro (hx | hx)
          · exact Or.inl hx
          · exact Or.inr ((hs x).mpr hx)
      rw [ih _ _ hs']

/-- C6: in the hybrid query path, the merged candidate list equals the dense
results deduplicated by `frame_id` followed by the sparse results
deduplicated against both themselves and every dense `frame_id` — dense first,
intra-branch order preserved, a sparse row whose `frame_id` already occurred
in the dense branch dropped; and when the sparse branch raises, the merge of
the dense results with the empty contribution returns exactly the
deduplicated dense results. -/
theorem hybrid_merge_dense_first (dense sparse : List RFrame) (err : String) :
    mergedFrames dense sparse =
      specDedup [] dense ++
        specDedup (dense.map (fun r => r.frame_id)) sparse ∧
    mergedFrames dense (sparseBranchResult (Except.error err)) =
      specDedup [] dense := by
  have hmain : mergedFrames dense sparse =
      specDedup [] dense ++
        specDedup (dense.map (fun r => r.frame_id)) sparse := by
    unfold mergedFrames
    rw [mergeLoop_eq dense [] [], mergeLoop_eq sparse]
    simp only [List.nil_append]
    rw [specDedup_seen_congr sparse (seenAfter [] dense)
      (dense.map (fun r => r.frame_id))]
    intro x
    rw [seenAfter_mem]
    simp
  refine ⟨hmain, ?_⟩
  show (mergeLoop (mergeLoop ([], []) dense) []).1 = specDedup [] dense
  rw [mergeLoop_eq dense [] [], mergeLoop_eq ([] : List RFrame)]
  simp [specDedup]

/-! ## OCR queue theorems -/

/-- C7 counterexample: with the queue at capacity (100 queued tasks), enqueueing
a new task leaves the queue unchanged — the NEW task is dropped (with a
warning), not the oldest queued one as the claim states, and the new task is
not retained. -/
theorem ocr_queue_drops_new_not_oldest :
    (enqueueOcrTask true (List.replicate 100 ⟨"old", "t", "p"⟩) ⟨"new", "t", "p"⟩).1 =
      List.replicate 100 ⟨"old", "t", "p"⟩ ∧
    (⟨"new", "t", "p"⟩ : OcrTask) ∉
      (enqueueOcrTask true (List.replicate 100 ⟨"old", "t", "p"⟩) ⟨"new", "t", "p"⟩).1 ∧
    (enqueueOcrTask true (List.replicate 100 ⟨"old", "t", "p"⟩) ⟨"new", "t", "p"⟩).2 =
      some ("OCR queue full, dropping frame") := by
  refine ⟨rfl, ?_, rfl⟩
  decide

/-- C7 amended: when the bounded OCR queue (capacity 100) is full, enqueueing a
further task drops the NEW task — the queue is unchanged — and logs a warning;
the rest of the ingest pipeline for the current frame is unaffected (the frame
was already stored before the enqueue attempt, and the reported store outcome
does not depend on the queue). -/
theorem ocr_queue_full_drops_new (q : List OcrTask) (t : OcrTask)
    (hfull : ocrQueueMaxsize ≤ q.length) :
    enqueueOcrTask true q t = (q, some ("OCR queue full, dropping frame")) ∧
    (∀ (storeSuccess useOcr : Bool) (q' : List OcrTask) (t' : OcrTask),
      (pipelineStoreThenEnqueue storeSuccess useOcr q' t').1 = storeSuccess) := by
  constructor
  · unfold enqueueOcrTask
    rw [if_neg (by simp), if_pos hfull]
  · intro s u q' t'
    unfold pipelineStoreThenEnqueue
    split <;> rfl

/-- Witness for C7's amended claim: a concrete full queue. -/
theorem ocr_queue_full_drops_new_witness :
    enqueueOcrTask true (List.replicate 100 ⟨"a", "b", "c"⟩) ⟨"d", "e", "f"⟩ =
      (List.replicate 100 ⟨"a", "b", "c"⟩, some ("OCR queue full, dropping frame")) :=
  (ocr_queue_full_drops_new (List.replicate 100 ⟨"a", "b", "c"⟩) ⟨"d", "e", "f"⟩
    (by decide)).1

/-! ## SQLiteStorage error-handling theorems -/

/-- C8: the public `SQLiteStorage` methods wrap their whole body in
`try/except Exception` and never propagate an exception: whenever any internal
database call errors, `store_frame_with_ocr` (a write) returns `False`,
`search_by_text` (a search) returns `[]`, `insert_video_chunk` (a chunk
insert) returns `-1`, `get_latest_frame` (a single-row getter) returns `None`,
and `get_frames_batch` (a batch read) returns `[]`. -/
theorem sqlite_methods_swallow_errors :
    (∀ (t : String) (c : StoreFrameCalls) (e : PyErr),
        storeFrameWithOcrBody t c = Except.error e →
        storeFrameWithOcrRun t c = false) ∧
    (∀ (α β : Type) (c : SearchCalls α β) (e : PyErr),
        searchByTextBody c = Except.error e → searchByTextRun c = []) ∧
    (∀ (c : InsertChunkCalls) (e : PyErr),
        insertVideoChunkBody c = Except.error e → insertVideoChunkRun c = -1) ∧
    (∀ (α β : Type) (c : GetLatestCalls α β) (e : PyErr),
        getLatestFrameBody c = Except.error e → getLatestFrameRun c = none) ∧
    (∀ (α β : Type) (c : BatchCalls α β) (e : PyErr),
        getFramesBatchBody c = Except.error e → getFramesBatchRun c = []) := by
  refine ⟨?_, ?_, ?_, ?_, ?_⟩
  · intro t c e h
    unfold storeFrameWithOcrRun pyTry
    rw [h]
  · intro α β c e h
    unfold searchByTextRun pyTry
    rw [h]
  · intro c e h
    unfold insertVideoChunkRun pyTry
    rw [h]
  · intro α β c e h
    unfold getLatestFrameRun pyTry
    rw [h]
  · intro α β c e h
    unfold getFramesBatchRun pyTry
    rw [h]

/-- Witness for C8: concrete failing calls — the frames insert raises inside
`store_frame_with_ocr`, the chunk insert raises inside `insert_video_chunk`. -/
theorem sqlite_methods_swallow_errors_witness :
    storeFrameWithOcrRun ("txt")
      ⟨Except.ok (), Except.error PyErr.genErr, Except.ok (), Except.ok ()⟩ = false ∧
    insertVideoChunkRun
      ⟨Except.ok (), Except.error PyErr.genErr, Except.ok ()⟩ = -1 := by
  have h := sqlite_methods_swallow_errors
  exact ⟨h.1 ("txt") _ PyErr.genErr rfl, h.2.2.1 _ PyErr.genErr rfl⟩

/-! ## LanceDB OCR-embedding theorems -/

/-- C10: `store_ocr_embedding` returns `False` and appends no row when the
text is empty or whitespace-only, and the OCR vector table only ever grows for
non-blank text. -/
theorem store_ocr_embedding_blank (tbl : Option (List OcrVectorRow)) (addOk : Bool)
    (fid ts ip text : String) (emb : List ℚ) :
    (isBlankText text = true →
      storeOcrEmbedding tbl addOk fid ts ip text emb = (false, tbl)) ∧
    (ocrTableSize (storeOcrEmbedding tbl addOk fid ts ip text emb).2 ≠ ocrTableSize tbl →
      isBlankText text = false) := by
  constructor
  · intro hb
    unfold storeOcrEmbedding
    rw [if_pos hb]
  · intro hg
    by_cases hb : isBlankText text = true
    · exfalso
      apply hg
      unfold storeOcrEmbedding
      rw [if_pos hb]
    · simpa using hb

/-- Witness for C10: whitespace-only text is rejected with `False` and the
(absent) table is untouched. -/
theorem store_ocr_embedding_blank_witness :
    storeOcrEmbedding none true ("f1") ("2025-01-01T00:00:00") ("p.jpg") ("   ") [] =
      (false, none) :=
  (store_ocr_embedding_blank none true ("f1") ("2025-01-01T00:00:00") ("p.jpg")
    ("   ") []).1 (by decide)

/-! ## Query rewriting theorems -/

theorem extractTimeRange_le (parseIso : String → Option ℤ)
    (findTimeMatches : String → List String) (text : String) (a b : ℤ)
    (h : extractTimeRange parseIso findTimeMatches text = some (a, b)) : a ≤ b := by
  unfold extractTimeRange at h
  split at h
  · exact absurd h (by simp)
  · cases hfm : findTimeMatches text with
    | nil =>
      rw [hfm] at h
      simp at h
    | cons m1 rest =>
      cases rest with
      | nil =>
        rw [hfm] at h
        simp at h
      | cons m2 rest2 =>
        rw [hfm] at h
        dsimp only at h
        cases hp1 : parseIso m1 with
        | none =>
          rw [hp1] at h
          simp at h
        | some x =>
          cases hp2 : parseIso m2 with
          | none =>
            rw [hp1, hp2] at h
            simp at h
          | some y =>
            rw [hp1, hp2] at h
            dsimp only at h
            by_cases hlt : y < x
            · rw [if_pos hlt] at h
              injection h with h
              injection h with h1 h2
              omega
            · rw [if_neg hlt] at h
              injection h with h
              injection h with h1 h2
              omega

theorem timeFromDict_le (parseIso : String → Option ℤ)
    (findTimeMatches : String → List String) (pyStrOfTime : TimeField → String)
    (s e : Option String) (a b : ℤ)
    (h : timeFromDict parseIso findTimeMatches pyStrOfTime s e = some (a, b)) :
    a ≤ b := by
  unfold timeFromDict at h
  split at h
  · split at h
    case h_1 x y _ _ =>
      by_cases hlt : y < x
      · rw [if_pos hlt] at h
        injection h with h
        injection h with h1 h2
        omega
      · rw [if_neg hlt] at h
        injection h with h
        injection h with h1 h2
        omega
    case h_2 => exact extractTimeRange_le _ _ _ _ _ h
  · exact absurd h (by simp)

theorem ite_fallback_ne_nil (q : String) (X : List String) :
    (if X = [] then [q] else X) ≠ [] := by
  split
  · simp
  · assumption

theorem rewriteAndTime_nonempty (parseIso : String → Option ℤ)
    (findTimeMatches : String → List String) (pyStrOfTime : TimeField → String)
    (query : String) (er et : Bool) (resp : RewriteResp) :
    (rewriteAndTime parseIso findTimeMatches pyStrOfTime query er et resp).1 ≠ [] ∧
    (rewriteAndTime parseIso findTimeMatches pyStrOfTime query er et resp).2.1 ≠ [] := by
  unfold rewriteAndTime
  split
  · exact ⟨by simp, by simp⟩
  · cases resp <;> dsimp only
    case callError => exact ⟨by simp, by simp⟩
    case emptyText => exact ⟨by simp, by simp⟩
    case unparseable raw =>
      exact ⟨ite_fallback_ne_nil query _, ite_fallback_ne_nil query _⟩
    case parsed j =>
      exact ⟨ite_fallback_ne_nil query _, ite_fallback_ne_nil query _⟩

theorem rewriteAndTime_dense_fallback (parseIso : String → Option ℤ)
    (findTimeMatches : String → List String) (pyStrOfTime : TimeField → String)
    (query : String) (er et : Bool) (resp : RewriteResp)
    (h : er = false ∨ resp = .callError ∨ resp = .emptyText ∨
      (∃ raw, resp = .unparseable raw) ∨
      (∃ j, resp = .parsed j ∧
        (j.dense_queries = none ∨ j.dense_queries = some []))) :
    (rewriteAndTime parseIso findTimeMatches pyStrOfTime query er et resp).1 =
      [query] := by
  unfold rewriteAndTime
  split
  · rfl
  · rcases h with her | hc | he | ⟨raw, hu⟩ | ⟨j, hp, hd⟩
    · subst her
      cases resp <;> simp [ite_self]
    · subst hc
      rfl
    · subst he
      rfl
    · subst hu
      simp [ite_self]
    · subst hp
      dsimp only
      rcases hd with hd | hd <;> rw [hd] <;> cases er <;> simp [ite_self]

theorem rewriteAndTime_sparse_fallback (parseIso : String → Option ℤ)
    (findTimeMatches : String → List String) (pyStrOfTime : TimeField → String)
    (query : String) (er et : Bool) (resp : RewriteResp)
    (h : er = false ∨ resp = .callError ∨ resp = .emptyText ∨
      (∃ raw, resp = .unparseable raw) ∨
      (∃ j, resp = .parsed j ∧
        (j.sparse_queries = none ∨ j.sparse_queries = some []))) :
    (rewriteAndTime parseIso findTimeMatches pyStrOfTime query er et resp).2.1 =
      [query] := by
  unfold rewriteAndTime
  split
  · rfl
  · rcases h with her | hc | he | ⟨raw, hu⟩ | ⟨j, hp, hd⟩
    · subst her
      cases resp <;> simp [ite_self]
    · subst hc
      rfl
    · subst he
      rfl
    · subst hu
      simp [ite_self]
    · subst hp
      dsimp only
      rcases hd with hd | hd <;> rw [hd] <;> cases er <;> simp [ite_self]

theorem rewriteAndTime_none (parseIso : String → Option ℤ)
    (findTimeMatches : String → List String) (pyStrOfTime : TimeField → String)
    (query : String) (er et : Bool) (resp : RewriteResp)
    (h : resp = .callError ∨ (er = false ∧ et = false)) :
    (rewriteAndTime parseIso findTimeMatches pyStrOfTime query er et resp).2.2 =
      none := by
  unfold rewriteAndTime
  split
  · rfl
  · rcases h with hc | ⟨her, het⟩
    · subst hc
      rfl
    · subst her het
      simp at *

theorem rewriteAndTime_le (parseIso : String → Option ℤ)
    (findTimeMatches : String → List String) (pyStrOfTime : TimeField → String)
    (query : String) (er et : Bool) (resp : RewriteResp) (a b : ℤ)
    (h : (rewriteAndTime parseIso findTimeMatches pyStrOfTime query er et resp).2.2 =
      some (a, b)) : a ≤ b := by
  unfold rewriteAndTime at h
  split at h
  · simp at h
  · cases resp with
    | callError => simp at h
    | emptyText => simp at h
    | unparseable raw =>
      dsimp only at h
      split at h
      · exact extractTimeRange_le _ _ _ _ _ h
      · simp at h
    | parsed j =>
      dsimp only at h
      split at h
      · split at h
        case h_1 s e _ => exact timeFromDict_le _ _ _ _ _ _ _ h
        case h_2 s _ => exact extractTimeRange_le _ _ _ _ _ h
        case h_3 => simp at h
      · simp at h

/-- C9 counterexample: with rewriting disabled, time extraction enabled, and a
parsed response whose `dense_queries`/`sparse_queries` are empty lists but
whose `time_range` dict is valid, `rewrite_and_time` returns the original
query in both lists yet a non-None time range — refuting the claim that under
those conditions the time range is None. -/
theorem rewrite_and_time_time_range_not_none :
    rewriteAndTime
      (fun s => if s == "2024-01-01T00:00:00" then some 0
        else if s == "2024-01-02T00:00:00" then some 1 else none)
      (fun _ => []) (fun _ => "") ("q") false true
      (RewriteResp.parsed
        ⟨some [], some [],
         some (TimeField.dict (some "2024-01-01 00:00:00")
           (some "2024-01-02 00:00:00"))⟩) = (["q"], ["q"], some (0, 1)) ∧
    (rewriteAndTime
      (fun s => if s == "2024-01-01T00:00:00" then some 0
        else if s == "2024-01-02T00:00:00" then some 1 else none)
      (fun _ => []) (fun _ => "") ("q") false true
      (RewriteResp.parsed
        ⟨some [], some [],
         some (TimeField.dict (some "2024-01-01 00:00:00")
           (some "2024-01-02 00:00:00"))⟩)).2.2 ≠ none := by
  constructor
  · rfl
  · intro hnone
    have heq : (rewriteAndTime
      (fun s => if s == "2024-01-01T00:00:00" then some 0
        else if s == "2024-01-02T00:00:00" then some 1 else none)
      (fun _ => []) (fun _ => "") ("q") false true
      (RewriteResp.parsed
        ⟨some [], some [],
         some (TimeField.dict (some "2024-01-01 00:00:00")
           (some "2024-01-02 00:00:00"))⟩)).2.2 = some (0, 1) := rfl
    rw [heq] at hnone
    exact Option.noConfusion hnone

/-- C9 amended: `rewrite_and_time` always returns non-empty dense and sparse
query lists; whenever rewriting is disabled, the LLM call fails, the response
is empty or unparseable, or a parsed list is missing or empty, the affected
list equals `[original query]`; the time range is None when the call fails or
both rewriting and time extraction are disabled (but a time range may still be
extracted from a parsed object or from unparseable text when time extraction
is enabled); and any returned time range `(start, end)` satisfies
`start ≤ end` because reversed bounds are swapped. -/
theorem rewrite_and_time_fallbacks (parseIso : String → Option ℤ)
    (findTimeMatches : String → List String) (pyStrOfTime : TimeField → String)
    (query : String) (er et : Bool) (resp : RewriteResp) :
    ((rewriteAndTime parseIso findTimeMatches pyStrOfTime query er et resp).1 ≠ [] ∧
     (rewriteAndTime parseIso findTimeMatches pyStrOfTime query er et resp).2.1 ≠ []) ∧
    (er = false ∨ resp = .callError ∨ resp = .emptyText ∨
      (∃ raw, resp = .unparseable raw) ∨
      (∃ j, resp = .parsed j ∧ (j.dense_queries = none ∨ j.dense_queries = some [])) →
      (rewriteAndTime parseIso findTimeMatches pyStrOfTime query er et resp).1 =
        [query]) ∧
    (er = false ∨ resp = .callError ∨ resp = .emptyText ∨
      (∃ raw, resp = .unparseable raw) ∨
      (∃ j, resp = .parsed j ∧ (j.sparse_queries = none ∨ j.sparse_queries = some [])) →
      (rewriteAndTime parseIso findTimeMatches pyStrOfTime query er et resp).2.1 =
        [query]) ∧
    (resp = .callError ∨ (er = false ∧ et = false) →
      (rewriteAndTime parseIso findTimeMatches pyStrOfTime query er et resp).2.2 =
        none) ∧
    (∀ a b : ℤ,
      (rewriteAndTime parseIso findTimeMatches pyStrOfTime query er et resp).2.2 =
        some (a, b) → a ≤ b) :=
  ⟨rewriteAndTime_nonempty parseIso findTimeMatches pyStrOfTime query er et resp,
   rewriteAndTime_dense_fallback parseIso findTimeMatches pyStrOfTime query er et resp,
   rewriteAndTime_sparse_fallback parseIso findTimeMatches pyStrOfTime query er et resp,
   rewriteAndTime_none parseIso findTimeMatches pyStrOfTime query er et resp,
   rewriteAndTime_le parseIso findTimeMatches pyStrOfTime query er et resp⟩

/-- Witness for C9's amended claim: a failing LLM call falls back to the
original query with no time range. -/
theorem rewrite_and_time_fallbacks_witness :
    (rewriteAndTime (fun _ => none) (fun _ => []) (fun _ => "") ("q") true true
      RewriteResp.callError).1 = ["q"] ∧
    (rewriteAndTime (fun _ => none) (fun _ => []) (fun _ => "") ("q") true true
      RewriteResp.callError).2.2 = none := by
  have h := rewrite_and_time_fallbacks (fun _ => none) (fun _ => []) (fun _ => "")
    ("q") true true RewriteResp.callError
  exact ⟨h.2.1 (Or.inr (Or.inl rfl)), h.2.2.2.1 (Or.inl rfl)⟩

/-! ## Frame-id lemmas -/

theorem padNum_length : ∀ (w n : ℕ), (padNum w n).length = w := by
  intro w
  induction w with
  | zero => intro n; rfl
  | succ w ih => intro n; simp [padNum, ih]

theorem digitChar_isDigit (d : ℕ) : (digitChar d).isDigit = true := by
  unfold digitChar
  split <;> decide

theorem digitChar_lt_iff (d e : ℕ) (hd : d ≤ 9) (he : e ≤ 9) :
    (digitChar d < digitChar e) ↔ d < e := by
  interval_cases d <;> interval_cases e <;> simp [digitChar]

theorem digitChar_inj (d e : ℕ) (hd : d ≤ 9) (he : e ≤ 9) :
    digitChar d = digitChar e ↔ d = e := by
  interval_cases d <;> interval_cases e <;> simp [digitChar]

theorem lexConsIff {α : Type} {r : α → α → Prop} {a b : α} {l1 l2 : List α} :
    List.Lex r (a :: l1) (b :: l2) ↔ r a b ∨ (a = b ∧ List.Lex r l1 l2) := by
  constructor
  · intro h
    cases h with
    | cons h => exact Or.inr ⟨rfl, h⟩
    | rel h => exact Or.inl h
  · rintro (h | ⟨rfl, h⟩)
    · exact List.Lex.rel h
    · exact List.Lex.cons h

theorem lex_append_iff {l1 l2 a1 a2 : List Char} (h : l1.length = l2.length) :
    List.Lex (· < ·) (l1 ++ a1) (l2 ++ a2) ↔
      List.Lex (· < ·) l1 l2 ∨ (l1 = l2 ∧ List.Lex (· < ·) a1 a2) := by
  induction l1 generalizing l2 with
  | nil =>
    cases l2 with
    | nil =>
      have hnil : ¬ List.Lex (· < ·) ([] : List Char) [] := fun hx => by cases hx
      simp [hnil]
    | cons y l2' => simp at h
  | cons x l1' ih =>
    cases l2 with
    | nil => simp at h
    | cons y l2' =>
      have hlen : l1'.length = l2'.length := by simpa using h
      rw [List.cons_append, List.cons_append, lexConsIff, ih hlen, lexConsIff]
      constructor
      · rintro (hr | ⟨rfl, hl | ⟨rfl, ha⟩⟩)
        · exact Or.inl (Or.inl hr)
        · exact Or.inl (Or.inr ⟨rfl, hl⟩)
        · exact Or.inr ⟨rfl, ha⟩
      · rintro ((hr | ⟨rfl, hl⟩) | ⟨heq, ha⟩)
        · exact Or.inl hr
        · exact Or.inr ⟨rfl, Or.inl hl⟩
        · rw [List.cons.injEq] at heq
          exact Or.inr ⟨heq.1, Or.inr ⟨heq.2, ha⟩⟩

theorem div_mod_lt_iff (b n m : ℕ) (hb : 0 < b) :
    (n / b < m / b ∨ (n / b = m / b ∧ n % b < m % b)) ↔ n < m := by
  have h3 := Nat.div_add_mod n b
  have h4 := Nat.div_add_mod m b
  constructor
  · rintro (h | ⟨h1, h2⟩)
    · calc n < b * (n / b) + b := by
            have := Nat.mod_lt n hb
            omega
        _ = b * (n / b + 1) := by ring
        _ ≤ b * (m / b) := Nat.mul_le_mul_left b h
        _ ≤ m := by omega
    · rw [h1] at h3
      omega
  · intro h
    by_cases hd : n / b < m / b
    · exact Or.inl hd
    · have hd3 : n / b ≤ m / b := Nat.div_le_div_right (Nat.le_of_lt h)
      have he : n / b = m / b := le_antisymm hd3 (Nat.le_of_not_lt hd)
      refine Or.inr ⟨he, ?_⟩
      rw [he] at h3
      omega

theorem padNum_lt_iff :
    ∀ (w n m : ℕ), n < 10 ^ w → m < 10 ^ w →
      (List.Lex (· < ·) (padNum w n) (padNum w m) ↔ n < m) := by
  intro w
  induction w with
  | zero =>
    intro n m hn hm
    have hn0 : n = 0 := by simpa using Nat.lt_one_iff.mp (by simpa using hn)
    have hm0 : m = 0 := by simpa using Nat.lt_one_iff.mp (by simpa using hm)
    subst hn0 hm0
    constructor
    · intro h; cases h
    · omega
  | succ w ih =>
    intro n m hn hm
    have hp : (0 : ℕ) < 10 ^ w := Nat.pow_pos (by norm_num)
    have hdn : n / 10 ^ w ≤ 9 := by
      have hx : n / 10 ^ w < 10 := Nat.div_lt_of_lt_mul (by
        simpa [pow_succ] using hn)
      omega
    have hdm : m / 10 ^ w ≤ 9 := by
      have hx : m / 10 ^ w < 10 := Nat.div_lt_of_lt_mul (by
        simpa [pow_succ] using hm)
      omega
    rw [padNum, padNum, lexConsIff, digitChar_lt_iff _ _ hdn hdm,
      digitChar_inj _ _ hdn hdm,
      ih (n % 10 ^ w) (m % 10 ^ w) (Nat.mod_lt n hp) (Nat.mod_lt m hp),
      div_mod_lt_iff (10 ^ w) n m hp]

theorem padNum_inj (w n m : ℕ) (hn : n < 10 ^ w) (hm : m < 10 ^ w) :
    padNum w n = padNum w m ↔ n = m := by
  constructor
  · intro h
    by_contra hne
    rcases Nat.lt_or_ge n m with hlt | hge
    · have hx := (padNum_lt_iff w n m hn hm).mpr hlt
      rw [h] at hx
      exact absurd ((padNum_lt_iff w m m hm hm).mp hx) (lt_irrefl m)
    · have hgt : m < n := lt_of_le_of_ne hge (fun he => hne he.symm)
      have hx := (padNum_lt_iff w m n hm hn).mpr hgt
      rw [h] at hx
      exact absurd ((padNum_lt_iff w m m hm hm).mp hx) (lt_irrefl m)
  · intro h
    rw [h]

theorem padChunk_lt_iff {w n m : ℕ} {a b : List Char} (hn : n < 10 ^ w)
    (hm : m < 10 ^ w) :
    List.Lex (· < ·) (padNum w n ++ a) (padNum w m ++ b) ↔
      n < m ∨ (n = m ∧ List.Lex (· < ·) a b) := by
  rw [lex_append_iff (by rw [padNum_length, padNum_length]),
    padNum_lt_iff w n m hn hm, padNum_inj w n m hn hm]

theorem sepCons_lt_iff (c : Char) (a b : List Char) :
    List.Lex (· < ·) (c :: a) (c :: b) ↔ List.Lex (· < ·) a b := by
  rw [lexConsIff]
  simp [lt_irrefl]

theorem padNum_digits : ∀ (w n : ℕ), ∀ c ∈ padNum w n, c.isDigit = true := by
  intro w
  induction w with
  | zero => intro n c hc; simp [padNum] at hc
  | succ w ih =>
    intro n c hc
    rw [padNum] at hc
    rcases List.mem_cons.mp hc with h | h
    · rw [h]; exact digitChar_isDigit _
    · exact ih _ c h

theorem claimCore_generateFrameId (t : PyDateTime) (_h : ValidDT t) :
    claimCore (generateFrameId t) = true := by
  simp only [generateFrameId, fmtTimestamp, padNum, List.cons_append,
    List.nil_append, claimCore]
  simp [digitChar_isDigit]

theorem generateFrameId_length (t : PyDateTime) :
    (generateFrameId t).length = 22 := by
  simp [generateFrameId, fmtTimestamp, padNum_length]

theorem generateFrameId_lt_iff (t1 t2 : PyDateTime) (h1 : ValidDT t1)
    (h2 : ValidDT t2) :
    (List.Lex (· < ·) (generateFrameId t1) (generateFrameId t2) ↔ dtLt t1 t2) := by
  obtain ⟨a1, a2, a3, a4, a5, a6, a7, a8, a9, a10⟩ := h1
  obtain ⟨b1, b2, b3, b4, b5, b6, b7, b8, b9, b10⟩ := h2
  have hy1 : t1.year < 10 ^ 4 := by norm_num; omega
  have hy2 : t2.year < 10 ^ 4 := by norm_num; omega
  have hmo1 : t1.month < 10 ^ 2 := by norm_num; omega
  have hmo2 : t2.month < 10 ^ 2 := by norm_num; omega
  have hd1 : t1.day < 10 ^ 2 := by norm_num; omega
  have hd2 : t2.day < 10 ^ 2 := by norm_num; omega
  have hh1 : t1.hour < 10 ^ 2 := by norm_num; omega
  have hh2 : t2.hour < 10 ^ 2 := by norm_num; omega
  have hmi1 : t1.minute < 10 ^ 2 := by norm_num; omega
  have hmi2 : t2.minute < 10 ^ 2 := by norm_num; omega
  have hs1 : t1.second < 10 ^ 2 := by norm_num; omega
  have hs2 : t2.second < 10 ^ 2 := by norm_num; omega
  have hu1 : t1.microsecond < 10 ^ 6 := by norm_num; omega
  have hu2 : t2.microsecond < 10 ^ 6 := by norm_num; omega
  unfold generateFrameId fmtTimestamp
  rw [padChunk_lt_iff hy1 hy2, padChunk_lt_iff hmo1 hmo2, padChunk_lt_iff hd1 hd2,
    sepCons_lt_iff, padChunk_lt_iff hh1 hh2, padChunk_lt_iff hmi1 hmi2,
    padChunk_lt_iff hs1 hs2, sepCons_lt_iff, padNum_lt_iff 6 _ _ hu1 hu2]
  exact Iff.rfl

/-- C5 counterexample: the recording coordinator's `_generate_frame_id`
prefixes `frame_` (and appends an 8-hex suffix), so at the concrete timestamp
2025-12-01 14:30:25.123456 its frame id
`frame_20251201_143025_123456_a1b2c3d4` is 37 characters and matches neither
the 22-character form nor the 31-character suffixed form the claim allows —
refuting "every frame_id generated by the system". -/
theorem coordinator_frame_id_not_claim_format :
    ¬ claimFrameIdFormat
      (coordinatorFrameId ⟨2025, 12, 1, 14, 30, 25, 123456⟩ ("a1b2c3d4").toList) := by
  decide

/-- C5 amended: main.py's `generate_frame_id` produces exactly the claimed
format — 22 characters, underscores at positions 8 and 15, digits elsewhere —
and its lexicographic order coincides with timestamp order; the recording
coordinator's `_generate_frame_id`, however, produces
`frame_<22-char timestamp>_<8 hex>` (37 characters), which does not match the
claimed format. -/
theorem frame_id_format_and_order :
    (∀ t : PyDateTime, ValidDT t → (generateFrameId t).length = 22 ∧
      claimCore (generateFrameId t) = true) ∧
    (∀ t1 t2 : PyDateTime, ValidDT t1 → ValidDT t2 →
      (List.Lex (· < ·) (generateFrameId t1) (generateFrameId t2) ↔ dtLt t1 t2)) ∧
    (∀ (t : PyDateTime) (hex8 : List Char),
      coordinatorFrameId t hex8 =
        ("frame_").toList ++ generateFrameId t ++ ('_' :: hex8) ∧
      (hex8.length = 8 → ¬ claimFrameIdFormat (coordinatorFrameId t hex8))) := by
  refine ⟨?_, generateFrameId_lt_iff, ?_⟩
  · intro t ht
    exact ⟨generateFrameId_length t, claimCore_generateFrameId t ht⟩
  · intro t hex8
    refine ⟨rfl, ?_⟩
    intro hlen hfmt
    have hlength : (coordinatorFrameId t hex8).length = 37 := by
      simp [coordinatorFrameId, fmtTimestamp, padNum_length, hlen]
    rcases hfmt with ⟨h22, _⟩ | ⟨h31, _⟩
    · omega
    · omega

/-- Witness for C5's amended claim: a concrete valid timestamp and its
successor one second later. -/
theorem frame_id_format_and_order_witness :
    claimCore (generateFrameId ⟨2025, 12, 1, 14, 30, 25, 123456⟩) = true ∧
    (List.Lex (· < ·) (generateFrameId ⟨2025, 12, 1, 14, 30, 25, 123456⟩)
        (generateFrameId ⟨2025, 12, 1, 14, 30, 26, 0⟩) ↔
      dtLt ⟨2025, 12, 1, 14, 30, 25, 123456⟩ ⟨2025, 12, 1, 14, 30, 26, 0⟩) := by
  have h := frame_id_format_and_order
  exact ⟨(h.1 ⟨2025, 12, 1, 14, 30, 25, 123456⟩ (by decide)).2,
    h.2.1 ⟨2025, 12, 1, 14, 30, 25, 123456⟩ ⟨2025, 12, 1, 14, 30, 26, 0⟩
      (by decide) (by decide)⟩

end VisualMem
